import Mathlib

/-!
# Verification of the pipfile manifest model (`pipenv/patched/pipfile/api.py`)

This file is a shallow embedding of the Python module `pipfile/api.py`:
the manifest parser (`PipfileParser`), the environment-variable injector,
the requirement model (`PackageRequirement`, `VCSRequirement`), the lock
model (`LockMeta`, `LockedPipfile`), and the façade operations on
`Pipfile` (`hash`, `lock`, `assert_requirements`, `find`).

Python values flowing through this code (parsed TOML trees, JSON-like
dictionaries, attrs instances) are modelled by the inductive type `Value`.
Python dictionaries are association lists `List (String × Value)`; real
Python dicts never hold duplicate keys, so theorems that depend on it take
a `Nodup` hypothesis on the key list.  Exceptions are modelled by
`Except PyErr`.
-/

namespace Pipfile

/-- A Python runtime error, tagged by its class and message, mirroring the
exceptions this module can raise (`TypeError`, `ValueError`,
`AttributeError`, `AssertionError`, `RuntimeError`, `KeyError`,
`NameError`). -/
inductive PyErr where
  | typeError (msg : String)
  | valueError (msg : String)
  | attributeError (msg : String)
  | assertionError (msg : String)
  | runtimeError (msg : String)
  | keyError (msg : String)
  | nameError (msg : String)
deriving DecidableEq, Repr

/-- A Python value as it occurs in this module's data flow: `None`, bools,
ints, strings, lists, tuples, string-keyed dicts (as association lists in
insertion order, like Python dicts), and `VCSRequirement` attrs instances
(constructor `vcsRequirement`, fields `vcs_name`, `ref`, `uri`,
`subdirectory` in attrs field order). -/
inductive Value where
  | none
  | bool (b : Bool)
  | int (n : Int)
  | str (s : String)
  | list (l : List Value)
  | tup (l : List Value)
  | dict (l : List (String × Value))
  | vcsRequirement (vcs_name ref uri subdirectory : Value)

namespace Value

/-- Python truthiness (`bool(v)`): `None`, `False`, `0`, `""` and empty
collections are falsy; a `VCSRequirement` instance (no `__bool__`/`__len__`)
is always truthy. -/
def truthy : Value → Bool
  | .none => false
  | .bool b => b
  | .int n => n != 0
  | .str s => s ≠ ""
  | .list l => !l.isEmpty
  | .tup l => !l.isEmpty
  | .dict l => !l.isEmpty
  | .vcsRequirement _ _ _ _ => true

end Value

/-- First binding of key `k` in a Python dict modelled as an association
list (`d[k]` / `d.get(k)`; for genuine Python dicts keys are unique, so
"first" is exact). -/
def lookupKey (l : List (String × Value)) (k : String) : Option Value :=
  match l with
  | [] => Option.none
  | (k', v) :: rest => if k' = k then some v else lookupKey rest k

/-- `d[k] = v` on a Python dict: an existing key keeps its position and is
re-bound, a new key is appended at the end. -/
def setKey (l : List (String × Value)) (k : String) (v : Value) :
    List (String × Value) :=
  match l with
  | [] => [(k, v)]
  | (k', v') :: rest =>
    if k' = k then (k, v) :: rest else (k', v') :: setKey rest k v

/-- `d.pop(k, None)`: the removed binding (if any) and the remaining dict. -/
def popKey (l : List (String × Value)) (k : String) :
    Option Value × List (String × Value) :=
  match l with
  | [] => (Option.none, [])
  | (k', v) :: rest =>
    if k' = k then (some v, rest)
    else
      let (r, rest') := popKey rest k
      (r, (k', v) :: rest')

/-- `base.update(upd)` on Python dicts: each binding of `upd` is assigned
into `base` in order (existing keys keep their position, new keys are
appended). -/
def dictUpdate (base upd : List (String × Value)) : List (String × Value) :=
  upd.foldl (fun acc (p : String × Value) => setKey acc p.1 p.2) base

/-- `d[k]` with `KeyError` on a missing key. -/
def getKey (l : List (String × Value)) (k : String) : Except PyErr Value :=
  match lookupKey l k with
  | some v => Except.ok v
  | Option.none => Except.error (.keyError k)

/-- The key list of a dict, in insertion order. -/
def keysOf (l : List (String × Value)) : List String := l.map Prod.fst

theorem lookupKey_setKey_self (l : List (String × Value)) (k : String)
    (v : Value) : lookupKey (setKey l k v) k = some v := by
  induction l with
  | nil => simp [setKey, lookupKey]
  | cons p rest ih =>
    by_cases h : p.1 = k <;> simp [setKey, lookupKey, h, ih]

theorem lookupKey_setKey_ne (l : List (String × Value)) (k k' : String)
    (v : Value) (h : k ≠ k') : lookupKey (setKey l k v) k' = lookupKey l k' := by
  induction l with
  | nil => simp [setKey, lookupKey, h]
  | cons p rest ih =>
    obtain ⟨a, b⟩ := p
    by_cases hp : a = k
    · subst hp
      simp [setKey, lookupKey, h, Ne.symm h]
    · by_cases hp' : a = k' <;>
        simp [setKey, lookupKey, hp, hp', h, Ne.symm h, ih]

theorem lookupKey_popKey_ne (l : List (String × Value)) (k k' : String)
    (h : k ≠ k') : lookupKey (popKey l k).2 k' = lookupKey l k' := by
  induction l with
  | nil => simp [popKey, lookupKey]
  | cons p rest ih =>
    obtain ⟨a, b⟩ := p
    by_cases hp : a = k
    · subst hp
      simp [popKey, lookupKey, h, Ne.symm h]
    · by_cases hp' : a = k' <;>
        simp [popKey, lookupKey, hp, hp', h, Ne.symm h, ih]

theorem popKey_fst (l : List (String × Value)) (k : String) :
    (popKey l k).1 = lookupKey l k := by
  induction l with
  | nil => simp [popKey, lookupKey]
  | cons p rest ih =>
    by_cases hp : p.1 = k <;> simp [popKey, lookupKey, hp, ih]

/-! ## `os.path.expandvars` (POSIX), the external shell-style expander

`PipfileParser.inject_environment_variables` delegates string expansion to
`os.path.expandvars`.  On POSIX it scans for `$name` (`name` a maximal run
of ASCII word characters) or a brace-delimited `$\x7bname\x7d`; a defined
variable is replaced by its value (which is not rescanned), while a
reference to an undefined variable is left in place and scanning resumes
after it. -/

/-- The process environment, as an association list (first binding wins,
like `os.environ`). -/
def envLookup (env : List (String × String)) (name : String) : Option String :=
  match env with
  | [] => Option.none
  | (k, v) :: rest => if k = name then some v else envLookup rest name

/-- The character `\x7b`. -/
def obrace : Char := Char.ofNat 123

/-- The character `\x7d`. -/
def cbrace : Char := Char.ofNat 125

/-- ASCII word character, as in the `re.ASCII` variable-name pattern of
`posixpath.expandvars`. -/
def isWordChar (c : Char) : Bool :=
  ('a' ≤ c && c ≤ 'z') || ('A' ≤ c && c ≤ 'Z') || ('0' ≤ c && c ≤ '9') ||
    c = '_'

/-- Split a character list at the first `\x7d`, returning the part before
it and the part after it (the brace-form variable pattern `\x7b[^\x7d]*\x7d`). -/
def splitAtBrace : List Char → Option (List Char × List Char)
  | [] => Option.none
  | c :: cs =>
    if c = cbrace then some ([], cs)
    else
      match splitAtBrace cs with
      | some (name, after) => some (c :: name, after)
      | Option.none => Option.none

theorem splitAtBrace_length {cs name after : List Char}
    (h : splitAtBrace cs = some (name, after)) : after.length < cs.length := by
  induction cs generalizing name after with
  | nil => simp [splitAtBrace] at h
  | cons c cs ih =>
    by_cases hc : c = cbrace
    · simp [splitAtBrace, hc] at h
      obtain ⟨_, rfl⟩ := h
      simp
    · simp only [splitAtBrace, hc, if_false] at h
      match hsp : splitAtBrace cs with
      | some (name', after') =>
        rw [hsp] at h
        simp at h
        obtain ⟨_, rfl⟩ := h
        exact Nat.lt_trans (ih hsp) (by simp)
      | Option.none => rw [hsp] at h; simp at h

theorem length_dropWhile_le (p : Char → Bool) (l : List Char) :
    (l.dropWhile p).length ≤ l.length := by
  induction l with
  | nil => simp [List.dropWhile]
  | cons c cs ih =>
    by_cases h : p c
    · simp only [List.dropWhile, h]
      exact Nat.le_trans ih (by simp)
    · simp [List.dropWhile, h]

/-- The scanning loop of `posixpath.expandvars` over a character list:
at each `$`, try the brace form first, then a maximal word-character name;
defined variables are substituted (substituted text is not rescanned),
undefined references are left unchanged and scanning resumes after them. -/
def expandVarsAux (env : List (String × String)) : List Char → List Char
  | [] => []
  | c :: cs =>
    if c = '$' then
      match cs with
      | [] => [c]
      | b :: cs2 =>
        if b = obrace then
          match hsp : splitAtBrace cs2 with
          | some (name, after) =>
            match envLookup env (String.mk name) with
            | some v => v.data ++ expandVarsAux env after
            | Option.none =>
              c :: b :: (name ++ cbrace :: expandVarsAux env after)
          | Option.none => c :: expandVarsAux env (b :: cs2)
        else
          let name := (b :: cs2).takeWhile isWordChar
          if name.isEmpty then c :: expandVarsAux env (b :: cs2)
          else
            match envLookup env (String.mk name) with
            | some v =>
              v.data ++ expandVarsAux env ((b :: cs2).dropWhile isWordChar)
            | Option.none =>
              c :: (name ++ expandVarsAux env ((b :: cs2).dropWhile isWordChar))
    else c :: expandVarsAux env cs
termination_by l => l.length
decreasing_by
  all_goals simp_all
  all_goals
    first
      | exact Nat.lt_trans (splitAtBrace_length hsp) (by omega)
      | exact Nat.lt_of_le_of_lt (length_dropWhile_le _ _)
          (by simp only [List.length_cons]; omega)
      | omega

/-- `os.path.expandvars(s)` (POSIX): unchanged when `s` has no `$`,
otherwise the scan above. -/
def expandvars (env : List (String × String)) (s : String) : String :=
  if s.data.contains '$' then String.mk (expandVarsAux env s.data) else s

/-! ## `PipfileParser.inject_environment_variables`

Source (`api.py` lines 72-89): returns `d` unchanged when falsy; applies
`os.path.expandvars` when `d` is a string; otherwise iterates `d.items()`
(an `AttributeError` when `d` is not a dict), expanding string values,
recursing into dict values, and mapping the recursion over list values
element by element. -/

mutual

/-- `PipfileParser.inject_environment_variables(d)`. -/
def inject_environment_variables (env : List (String × String)) (d : Value) :
    Except PyErr Value :=
  if d.truthy = false then Except.ok d
  else
    match d with
    | .str s => Except.ok (.str (expandvars env s))
    | .dict l => do
      let l' ← injectItems env l
      Except.ok (.dict l')
    | _ =>
      Except.error (.attributeError "object has no attribute items")

/-- The `for k, v in d.items()` loop body of
`inject_environment_variables`, over the dict entries in order. -/
def injectItems (env : List (String × String)) :
    List (String × Value) → Except PyErr (List (String × Value))
  | [] => Except.ok []
  | (k, v) :: rest => do
    let v' ←
      match v with
      | .str s => Except.ok (Value.str (expandvars env s))
      | .dict dl => inject_environment_variables env (.dict dl)
      | .list el => do
        let el' ← injectList env el
        Except.ok (Value.list el')
      | other => Except.ok other
    let rest' ← injectItems env rest
    Except.ok ((k, v') :: rest')

/-- The `[self.inject_environment_variables(e) for e in v]` comprehension
over a list value. -/
def injectList (env : List (String × String)) :
    List Value → Except PyErr (List Value)
  | [] => Except.ok []
  | e :: rest => do
    let e' ← inject_environment_variables env e
    let rest' ← injectList env rest
    Except.ok (e' :: rest')

end

/-- The per-value transform applied by the loop of
`inject_environment_variables` (the inline `match` of `injectItems`, as a
named function for reasoning). -/
def injectDictValue (env : List (String × String)) (v : Value) :
    Except PyErr Value :=
  match v with
  | .str s => Except.ok (Value.str (expandvars env s))
  | .dict dl => inject_environment_variables env (.dict dl)
  | .list el => do
    let el' ← injectList env el
    Except.ok (Value.list el')
  | other => Except.ok other

theorem injectItems_cons (env : List (String × String)) (k : String)
    (v : Value) (rest : List (String × Value)) :
    injectItems env ((k, v) :: rest) =
      (do
        let v' ← injectDictValue env v
        let rest' ← injectItems env rest
        Except.ok ((k, v') :: rest')) := by
  cases v <;> simp [injectItems, injectDictValue]

mutual

/-- The fragment of value trees on which `inject_environment_variables`
completes without an `AttributeError`: strings, dicts whose entries are
in `handledEntry`, and falsy values. -/
def handledTree : Value → Bool
  | .str _ => true
  | .dict l => handledClean l
  | v => !v.truthy

/-- Dict entries the injector handles: string, dict and list values are
transformed (list elements must themselves be handled trees); any other
value is left untouched by the loop, hence always handled. -/
def handledClean : List (String × Value) → Bool
  | [] => true
  | (_, v) :: rest => handledEntry v && handledClean rest

/-- A single dict value, as treated by the injector's loop. -/
def handledEntry : Value → Bool
  | .str _ => true
  | .dict l => handledClean l
  | .list el => handledSeq el
  | _ => true

/-- Elements of a list value: each goes through the full injector. -/
def handledSeq : List Value → Bool
  | [] => true
  | e :: rest => handledTree e && handledSeq rest

end

mutual

/-- The intended pure transform the spec describes (shape-preserving map
of `expandvars` over every string leaf); used to state what the injector
computes on its handled fragment. -/
def injectPure (env : List (String × String)) : Value → Value
  | .str s => .str (expandvars env s)
  | .dict l => .dict (injectPureItems env l)
  | .list el => .list (injectPureList env el)
  | v => v

/-- `injectPure` on dict entries. -/
def injectPureItems (env : List (String × String)) :
    List (String × Value) → List (String × Value)
  | [] => []
  | (k, v) :: rest => (k, injectPure env v) :: injectPureItems env rest

/-- `injectPure` on list elements. -/
def injectPureList (env : List (String × String)) :
    List Value → List Value
  | [] => []
  | e :: rest => injectPure env e :: injectPureList env rest

end

theorem expandvars_empty (env : List (String × String)) :
    expandvars env "" = "" := rfl

@[simp] theorem pure_eq_ok {α : Type} (a : α) :
    (pure a : Except PyErr α) = Except.ok a := rfl

@[simp] theorem ok_bind {α β : Type} (a : α) (f : α → Except PyErr β) :
    (Except.ok a >>= f : Except PyErr β) = f a := rfl

@[simp] theorem error_bind {α β : Type} (e : PyErr)
    (f : α → Except PyErr β) :
    (Except.error e >>= f : Except PyErr β) = Except.error e := rfl

@[simp] theorem bind_ok_eq {α β : Type} (a : α)
    (f : α → Except PyErr β) : Except.bind (Except.ok a) f = f a := rfl

mutual

/-- On the handled fragment the injector succeeds and agrees with the
pure shape-preserving transform. -/
theorem inject_eq_pure (env : List (String × String)) (d : Value)
    (h : handledTree d = true) :
    inject_environment_variables env d = Except.ok (injectPure env d) := by
  cases d with
  | str s =>
    by_cases hs : s = ""
    · subst hs
      simp [inject_environment_variables, Value.truthy, injectPure,
        expandvars_empty]
    · simp [inject_environment_variables, Value.truthy, hs, injectPure]
  | dict l =>
    have hl : handledClean l = true := by simpa [handledTree] using h
    by_cases he : l = []
    · subst he
      simp [inject_environment_variables, Value.truthy, injectPure,
        injectPureItems, List.isEmpty]
    · have := injectItems_eq_pure env l hl
      simp [inject_environment_variables, Value.truthy, List.isEmpty_iff, he,
        injectPure, this]
  | list el =>
    have : el = [] := by
      simp [handledTree, Value.truthy, List.isEmpty_iff] at h
      exact h
    subst this
    simp [inject_environment_variables, Value.truthy, injectPure,
      injectPureList, List.isEmpty]
  | tup l =>
    have : l = [] := by
      simp [handledTree, Value.truthy, List.isEmpty_iff] at h
      exact h
    subst this
    simp [inject_environment_variables, Value.truthy, injectPure,
      List.isEmpty]
  | none => simp [inject_environment_variables, Value.truthy, injectPure]
  | bool b =>
    have : b = false := by simpa [handledTree, Value.truthy] using h
    subst this
    simp [inject_environment_variables, Value.truthy, injectPure]
  | int n =>
    have : n = 0 := by simpa [handledTree, Value.truthy] using h
    subst this
    simp [inject_environment_variables, Value.truthy, injectPure]
  | vcsRequirement a b c d' =>
    simp [handledTree, Value.truthy] at h

/-- The entry loop agrees with the pure transform on handled entries. -/
theorem injectItems_eq_pure (env : List (String × String))
    (l : List (String × Value)) (h : handledClean l = true) :
    injectItems env l = Except.ok (injectPureItems env l) := by
  match l with
  | [] => simp [injectItems, injectPureItems]
  | (k, v) :: rest =>
    have hv : handledEntry v = true := by
      simp [handledClean] at h
      exact h.1
    have hrest : handledClean rest = true := by
      simp [handledClean] at h
      exact h.2
    have ihrest := injectItems_eq_pure env rest hrest
    cases v with
    | str s => simp [injectItems, ihrest, injectPureItems, injectPure]
    | dict dl =>
      have := inject_eq_pure env (.dict dl)
        (by simpa [handledTree] using (by simpa [handledEntry] using hv))
      simp [injectItems, this, ihrest, injectPureItems, injectPure]
    | list el =>
      have := injectList_eq_pure env el (by simpa [handledEntry] using hv)
      simp [injectItems, this, ihrest, injectPureItems, injectPure]
    | none => simp [injectItems, ihrest, injectPureItems, injectPure]
    | bool b => simp [injectItems, ihrest, injectPureItems, injectPure]
    | int n => simp [injectItems, ihrest, injectPureItems, injectPure]
    | tup tl => simp [injectItems, ihrest, injectPureItems, injectPure]
    | vcsRequirement a b c d' =>
      simp [injectItems, ihrest, injectPureItems, injectPure]

/-- The element loop agrees with the pure transform on handled elements. -/
theorem injectList_eq_pure (env : List (String × String)) (el : List Value)
    (h : handledSeq el = true) :
    injectList env el = Except.ok (injectPureList env el) := by
  match el with
  | [] => simp [injectList, injectPureList]
  | e :: rest =>
    have he : handledTree e = true := by
      simp [handledSeq] at h
      exact h.1
    have hrest : handledSeq rest = true := by
      simp [handledSeq] at h
      exact h.2
    have := inject_eq_pure env e he
    have ihrest := injectList_eq_pure env rest hrest
    simp [injectList, this, ihrest, injectPureList]

end

/-- One dict value agrees with the pure transform when handled. -/
theorem injectDictValue_eq_pure (env : List (String × String)) (v : Value)
    (h : handledEntry v = true) :
    injectDictValue env v = Except.ok (injectPure env v) := by
  cases v with
  | str s => simp [injectDictValue, injectPure]
  | dict dl =>
    have := inject_eq_pure env (.dict dl)
      (by simpa [handledTree] using (by simpa [handledEntry] using h))
    simp [injectDictValue, this, injectPure]
  | list el =>
    have := injectList_eq_pure env el (by simpa [handledEntry] using h)
    simp [injectDictValue, this, injectPure]
  | none => simp [injectDictValue, injectPure]
  | bool b => simp [injectDictValue, injectPure]
  | int n => simp [injectDictValue, injectPure]
  | tup tl => simp [injectDictValue, injectPure]
  | vcsRequirement a b c d' => simp [injectDictValue, injectPure]

/-! ## `json.dumps(data, sort_keys=True, separators=(",", ":"))`

`Pipfile.hash` canonicalizes `self.data` with Python's `json.dumps` using
sorted keys and minimal separators, then hashes the UTF-8 bytes with
SHA-256.  Strings are emitted with `ensure_ascii=True` escaping; values
that are not JSON-serializable (such as a `VCSRequirement` instance) raise
`TypeError`. -/

/-- Lowercase hexadecimal digit. -/
def hexDigit (n : Nat) : Char :=
  if n < 10 then Char.ofNat (48 + n) else Char.ofNat (87 + n)

/-- `\uXXXX` escape for a code unit. -/
def uEscape (n : Nat) : List Char :=
  '\\' :: 'u' :: [hexDigit ((n >>> 12) % 16), hexDigit ((n >>> 8) % 16),
    hexDigit ((n >>> 4) % 16), hexDigit (n % 16)]

/-- `json.dumps` escaping of one character (`ensure_ascii=True`): theedge
shorthand escapes, `\uXXXX` (with surrogate pairs beyond the BMP) for
anything outside printable ASCII, the character itself otherwise. -/
def escapeChar (c : Char) : List Char :=
  if c = '"' then ['\\', '"']
  else if c = '\\' then ['\\', '\\']
  else if c = Char.ofNat 10 then ['\\', 'n']
  else if c = Char.ofNat 13 then ['\\', 'r']
  else if c = Char.ofNat 9 then ['\\', 't']
  else if c = Char.ofNat 8 then ['\\', 'b']
  else if c = Char.ofNat 12 then ['\\', 'f']
  else if c.toNat < 32 || c.toNat > 126 then
    if c.toNat < 65536 then uEscape c.toNat
    else
      let n := c.toNat - 65536
      uEscape (55296 + (n >>> 10)) ++ uEscape (56320 + (n % 1024))
  else [c]

/-- A JSON string literal for `s`. -/
def jsonString (s : String) : String :=
  String.mk ('"' :: s.data.foldr (fun c acc => escapeChar c ++ acc) ['"'])

/-- Keys-only comparison used to model `sorted(dct.items())` in the JSON
encoder: Python compares item tuples, but on genuine dicts keys are unique
so ordering is by key; a stable sort by key is therefore exact. -/
def keyLE (a b : String × Value) : Prop := a.1 ≤ b.1

instance : DecidableRel keyLE := fun a b => String.decidableLE a.1 b.1

instance : IsTotal (String × Value) keyLE :=
  ⟨fun a b => le_total a.1 b.1⟩

instance : IsTrans (String × Value) keyLE :=
  ⟨fun _ _ _ h h' => le_trans h h'⟩

/-- `sorted(dct.items())` (stable, by key). -/
def sortEntries (l : List (String × Value)) : List (String × Value) :=
  l.insertionSort keyLE

theorem sizeOf_of_perm {l1 l2 : List (String × Value)} (h : l1.Perm l2) :
    sizeOf l1 = sizeOf l2 := by
  induction h with
  | nil => rfl
  | cons a _ ih => simp only [List.cons.sizeOf_spec]; omega
  | swap a b l => simp only [List.cons.sizeOf_spec]; omega
  | trans _ _ ih1 ih2 => omega

theorem sizeOf_sortEntries (l : List (String × Value)) :
    sizeOf (sortEntries l) = sizeOf l :=
  sizeOf_of_perm (List.perm_insertionSort keyLE l)

mutual

/-- `json.dumps(v, sort_keys=True, separators=(",", ":"))`. -/
def dumps : Value → Except PyErr String
  | .none => Except.ok "null"
  | .bool b => Except.ok (if b then "true" else "false")
  | .int n => Except.ok (toString n)
  | .str s => Except.ok (jsonString s)
  | .list el => do
    let parts ← dumpsList el
    Except.ok ("[" ++ String.intercalate "," parts ++ "]")
  | .tup tl => do
    let parts ← dumpsList tl
    Except.ok ("[" ++ String.intercalate "," parts ++ "]")
  | .dict l => do
    let parts ← dumpsItems (sortEntries l)
    Except.ok ("\x7b" ++ String.intercalate "," parts ++ "\x7d")
  | .vcsRequirement _ _ _ _ =>
    Except.error
      (.typeError "Object of type VCSRequirement is not JSON serializable")
termination_by v => sizeOf v
decreasing_by
  all_goals simp only [sizeOf_sortEntries, Value.dict.sizeOf_spec,
    Value.list.sizeOf_spec, Value.tup.sizeOf_spec, List.cons.sizeOf_spec,
    Prod.mk.sizeOf_spec] <;> omega

/-- Serialized `key:value` parts of a dict, in the given entry order. -/
def dumpsItems : List (String × Value) → Except PyErr (List String)
  | [] => Except.ok []
  | (k, v) :: rest => do
    let sv ← dumps v
    let srest ← dumpsItems rest
    Except.ok ((jsonString k ++ ":" ++ sv) :: srest)
termination_by l => sizeOf l
decreasing_by
  all_goals simp only [List.cons.sizeOf_spec, Prod.mk.sizeOf_spec] <;> omega

/-- Serialized elements of an array. -/
def dumpsList : List Value → Except PyErr (List String)
  | [] => Except.ok []
  | e :: rest => do
    let se ← dumps e
    let srest ← dumpsList rest
    Except.ok (se :: srest)
termination_by l => sizeOf l
decreasing_by
  all_goals simp only [List.cons.sizeOf_spec] <;> omega

end

mutual

/-- Like `dumps` but emitting dict entries in the order given, without
sorting; `dumps` factors through `normalize` into this. -/
def dumpsPlain : Value → Except PyErr String
  | .none => Except.ok "null"
  | .bool b => Except.ok (if b then "true" else "false")
  | .int n => Except.ok (toString n)
  | .str s => Except.ok (jsonString s)
  | .list el => do
    let parts ← dumpsPlainList el
    Except.ok ("[" ++ String.intercalate "," parts ++ "]")
  | .tup tl => do
    let parts ← dumpsPlainList tl
    Except.ok ("[" ++ String.intercalate "," parts ++ "]")
  | .dict l => do
    let parts ← dumpsPlainItems l
    Except.ok ("\x7b" ++ String.intercalate "," parts ++ "\x7d")
  | .vcsRequirement _ _ _ _ =>
    Except.error
      (.typeError "Object of type VCSRequirement is not JSON serializable")

/-- `dumpsPlain` on dict entries, in order. -/
def dumpsPlainItems : List (String × Value) → Except PyErr (List String)
  | [] => Except.ok []
  | (k, v) :: rest => do
    let sv ← dumpsPlain v
    let srest ← dumpsPlainItems rest
    Except.ok ((jsonString k ++ ":" ++ sv) :: srest)

/-- `dumpsPlain` on array elements. -/
def dumpsPlainList : List Value → Except PyErr (List String)
  | [] => Except.ok []
  | e :: rest => do
    let se ← dumpsPlain e
    let srest ← dumpsPlainList rest
    Except.ok (se :: srest)

end

mutual

/-- Canonical form of a value: every dict's entries recursively sorted by
key.  Two values normalize identically exactly when they carry the same
logical content independent of dict entry order (for duplicate-free
keys). -/
def normalize : Value → Value
  | .dict l => .dict (sortEntries (normalizeItems l))
  | .list el => .list (normalizeList el)
  | .tup tl => .tup (normalizeList tl)
  | v => v

/-- `normalize` each value of a dict's entries. -/
def normalizeItems : List (String × Value) → List (String × Value)
  | [] => []
  | (k, v) :: rest => (k, normalize v) :: normalizeItems rest

/-- `normalize` each element of a list. -/
def normalizeList : List Value → List Value
  | [] => []
  | e :: rest => normalize e :: normalizeList rest

end

theorem normalizeItems_eq_map (l : List (String × Value)) :
    normalizeItems l = l.map (fun p => (p.1, normalize p.2)) := by
  induction l with
  | nil => rfl
  | cons p rest ih =>
    obtain ⟨k, v⟩ := p
    simp [normalizeItems, ih]

theorem sizeOf_snd_lt_dict {p : String × Value} {l : List (String × Value)}
    (h : p ∈ l) : sizeOf p.2 < sizeOf (Value.dict l) := by
  induction l with
  | nil => cases h
  | cons a rest ih =>
    rcases List.mem_cons.mp h with h' | h'
    · subst h'
      simp only [Value.dict.sizeOf_spec, List.cons.sizeOf_spec]
      have : sizeOf p.2 ≤ sizeOf p := by
        obtain ⟨x, y⟩ := p
        simp only [Prod.mk.sizeOf_spec]
        omega
      omega
    · have := ih h'
      simp only [Value.dict.sizeOf_spec, List.cons.sizeOf_spec] at this ⊢
      omega

theorem sizeOf_mem_lt_list {e : Value} {l : List Value} (h : e ∈ l) :
    sizeOf e < sizeOf (Value.list l) := by
  induction l with
  | nil => cases h
  | cons a rest ih =>
    rcases List.mem_cons.mp h with h' | h'
    · subst h'
      simp only [Value.list.sizeOf_spec, List.cons.sizeOf_spec]
      omega
    · have := ih h'
      simp only [Value.list.sizeOf_spec, List.cons.sizeOf_spec] at this ⊢
      omega

theorem sizeOf_mem_lt_tup {e : Value} {l : List Value} (h : e ∈ l) :
    sizeOf e < sizeOf (Value.tup l) := by
  induction l with
  | nil => cases h
  | cons a rest ih =>
    rcases List.mem_cons.mp h with h' | h'
    · subst h'
      simp only [Value.tup.sizeOf_spec, List.cons.sizeOf_spec]
      omega
    · have := ih h'
      simp only [Value.tup.sizeOf_spec, List.cons.sizeOf_spec] at this ⊢
      omega

theorem dumpsItems_factor (l : List (String × Value))
    (H : ∀ p ∈ l, dumps p.2 = dumpsPlain (normalize p.2)) :
    dumpsItems l = dumpsPlainItems (normalizeItems l) := by
  induction l with
  | nil => simp [dumpsItems, normalizeItems, dumpsPlainItems]
  | cons p rest ih =>
    obtain ⟨k, v⟩ := p
    have hv := H (k, v) (List.mem_cons_self _ _)
    have hrest := ih (fun q hq => H q (List.mem_cons_of_mem _ hq))
    simp only [dumpsItems, normalizeItems, dumpsPlainItems]
    rw [hv, hrest]

theorem dumpsList_factor (l : List Value)
    (H : ∀ e ∈ l, dumps e = dumpsPlain (normalize e)) :
    dumpsList l = dumpsPlainList (normalizeList l) := by
  induction l with
  | nil => simp [dumpsList, normalizeList, dumpsPlainList]
  | cons e rest ih =>
    have he := H e (List.mem_cons_self _ _)
    have hrest := ih (fun q hq => H q (List.mem_cons_of_mem _ hq))
    simp only [dumpsList, normalizeList, dumpsPlainList]
    rw [he, hrest]

/-- `sortEntries` commutes with normalizing the values (the comparison
looks only at keys, which normalization preserves). -/
theorem sortEntries_normalizeItems (l : List (String × Value)) :
    sortEntries (normalizeItems l) = normalizeItems (sortEntries l) := by
  rw [normalizeItems_eq_map, normalizeItems_eq_map]
  exact (List.map_insertionSort keyLE keyLE
    (fun p => (p.1, normalize p.2)) l (fun a _ b _ => Iff.rfl)).symm

/-- The canonical serialization depends only on the normal form: `dumps`
factors through `normalize`. -/
theorem dumps_factor (v : Value) : dumps v = dumpsPlain (normalize v) := by
  cases v with
  | dict l =>
    have H : ∀ p ∈ sortEntries l, dumps p.2 = dumpsPlain (normalize p.2) := by
      intro p hp
      exact dumps_factor p.2
    simp only [dumps, normalize, dumpsPlain]
    rw [dumpsItems_factor (sortEntries l) H, sortEntries_normalizeItems]
  | list el =>
    have H : ∀ e ∈ el, dumps e = dumpsPlain (normalize e) := by
      intro e he
      exact dumps_factor e
    simp only [dumps, normalize, dumpsPlain]
    rw [dumpsList_factor el H]
  | tup tl =>
    have H : ∀ e ∈ tl, dumps e = dumpsPlain (normalize e) := by
      intro e he
      exact dumps_factor e
    simp only [dumps, normalize, dumpsPlain]
    rw [dumpsList_factor tl H]
  | none => simp [dumps, dumpsPlain, normalize]
  | bool b => simp [dumps, dumpsPlain, normalize]
  | int n => simp [dumps, dumpsPlain, normalize]
  | str s => simp [dumps, dumpsPlain, normalize]
  | vcsRequirement a b c d => simp [dumps, dumpsPlain, normalize]
termination_by sizeOf v
decreasing_by
  all_goals simp only [sortEntries] at *
  all_goals
    first
      | exact sizeOf_snd_lt_dict
          ((List.mem_insertionSort keyLE).mp (by assumption))
      | exact sizeOf_mem_lt_list (by assumption)
      | exact sizeOf_mem_lt_tup (by assumption)


/-- Two entry lists that are permutations of one another, both sorted by
key, with duplicate-free keys, are equal (sorting is a canonical form). -/
theorem sorted_perm_nodup_eq :
    ∀ {l1 l2 : List (String × Value)}, l1.Perm l2 → l1.Sorted keyLE →
      l2.Sorted keyLE → (l1.map Prod.fst).Nodup → l1 = l2
  | [], l2, hperm, _, _, _ => (hperm.nil_eq).symm ▸ rfl
  | a :: l1', l2, hperm, hs1, hs2, hnd => by
    match l2 with
    | [] => exact absurd hperm.symm.nil_eq (by simp)
    | b :: l2' =>
      have hab : a = b := by
        have hbmem : b ∈ a :: l1' := hperm.symm.subset (List.mem_cons_self b l2')
        have hamem : a ∈ b :: l2' := hperm.subset (List.mem_cons_self a l1')
        rcases List.mem_cons.mp hbmem with h | h
        · exact h.symm
        · -- `b` occurs in the tail of `l1`; `a ≼ b` by sortedness of `l1`
          -- and `b ≼ a` by sortedness of `l2`, so the keys agree, which
          -- contradicts key-nodup of `l1` unless `a = b`.
          have h1 : keyLE a b := List.rel_of_sorted_cons hs1 b h
          have h2 : keyLE b a := by
            rcases List.mem_cons.mp hamem with h' | h'
            · exact h'.symm ▸ le_refl _
            · exact List.rel_of_sorted_cons hs2 a h'
          have hkey : a.1 = b.1 := le_antisymm h1 h2
          have : a.1 ∈ l1'.map Prod.fst := hkey ▸ List.mem_map_of_mem Prod.fst h
          rw [List.map_cons] at hnd
          exact absurd this (List.nodup_cons.mp hnd).1
      subst hab
      have hperm' : l1'.Perm l2' := hperm.cons_inv
      have := sorted_perm_nodup_eq hperm' hs1.tail hs2.tail
        (List.nodup_cons.mp (List.map_cons Prod.fst a l1' ▸ hnd)).2
      rw [this]

/-- Permuting the entries of a duplicate-free dict does not change its
normal form. -/
theorem normalize_dict_perm {l1 l2 : List (String × Value)}
    (h : l1.Perm l2) (hnd : (l1.map Prod.fst).Nodup) :
    normalize (.dict l1) = normalize (.dict l2) := by
  have hmap : (normalizeItems l1).Perm (normalizeItems l2) := by
    rw [normalizeItems_eq_map, normalizeItems_eq_map]
    exact h.map _
  have hperm : (sortEntries (normalizeItems l1)).Perm
      (sortEntries (normalizeItems l2)) :=
    (List.perm_insertionSort keyLE _).trans
      (hmap.trans (List.perm_insertionSort keyLE _).symm)
  have hkeys : ((sortEntries (normalizeItems l1)).map Prod.fst).Nodup := by
    have h1 : ((normalizeItems l1).map Prod.fst).Nodup := by
      rw [normalizeItems_eq_map, List.map_map]
      exact hnd
    exact (List.Perm.map Prod.fst
      (List.perm_insertionSort keyLE (normalizeItems l1))).nodup_iff.mpr h1
  have := sorted_perm_nodup_eq hperm
    (List.sorted_insertionSort keyLE (normalizeItems l1))
    (List.sorted_insertionSort keyLE (normalizeItems l2)) hkeys
  simp only [normalize]
  rw [this]

/-! ## SHA-256 and UTF-8 (external collaborators of `Pipfile.hash`)

`hashlib.sha256(content.encode("utf8")).hexdigest()`, as pure functions on
byte lists (machine words as `Nat` with explicit reduction mod `2^32`). -/

/-- Right rotation of a 32-bit word. -/
def rotr32 (n x : Nat) : Nat :=
  ((x >>> n) ||| (x <<< (32 - n))) % 4294967296

/-- 32-bit addition. -/
def add32 (a b : Nat) : Nat := (a + b) % 4294967296

/-- SHA-256 round constants. -/
def sha256K : List Nat :=
  [1116352408, 1899447441, 3049323471, 3921009573, 961987163,
   1508970993, 2453635748, 2870763221, 3624381080, 310598401,
   607225278, 1426881987, 1925078388, 2162078206, 2614888103,
   3248222580, 3835390401, 4022224774, 264347078, 604807628,
   770255983, 1249150122, 1555081692, 1996064986, 2554220882,
   2821834349, 2952996808, 3210313671, 3336571891, 3584528711,
   113926993, 338241895, 666307205, 773529912, 1294757372,
   1396182291, 1695183700, 1986661051, 2177026350, 2456956037,
   2730485921, 2820302411, 3259730800, 3345764771, 3516065817,
   3600352804, 4094571909, 275423344, 430227734, 506948616,
   659060556, 883997877, 958139571, 1322822218, 1537002063,
   1747873779, 1955562222, 2024104815, 2227730452, 2361852424,
   2428436474, 2756734187, 3204031479, 3329325298]

/-- SHA-256 initial hash state. -/
def sha256H0 : List Nat :=
  [1779033703, 3144134277, 1013904242, 2773480762,
   1359893119, 2600822924, 528734635, 1541459225]

/-- Big-endian 8-byte encoding of the bit length. -/
def bigEndian8 (n : Nat) : List Nat :=
  [(n >>> 56) % 256, (n >>> 48) % 256, (n >>> 40) % 256, (n >>> 32) % 256,
   (n >>> 24) % 256, (n >>> 16) % 256, (n >>> 8) % 256, n % 256]

/-- SHA-256 message padding: `0x80`, zeros to 56 mod 64, then the bit
length. -/
def sha256Pad (msg : List Nat) : List Nat :=
  let len := msg.length
  let zeros := (120 - ((len + 1) % 64)) % 64
  msg ++ 0x80 :: List.replicate zeros 0 ++ bigEndian8 (len * 8)

/-- Big-endian bytes to 32-bit words. -/
def toWords : List Nat → List Nat
  | b0 :: b1 :: b2 :: b3 :: rest =>
    (b0 * 16777216 + b1 * 65536 + b2 * 256 + b3) :: toWords rest
  | _ => []

/-- Split a word list into 16-word blocks (the padded message is always a
whole number of blocks; a ragged tail cannot occur). -/
def chunkWords : List Nat → List (List Nat)
  | w0 :: w1 :: w2 :: w3 :: w4 :: w5 :: w6 :: w7 ::
      w8 :: w9 :: w10 :: w11 :: w12 :: w13 :: w14 :: w15 :: rest =>
    [w0, w1, w2, w3, w4, w5, w6, w7, w8, w9, w10, w11, w12, w13, w14, w15] ::
      chunkWords rest
  | [] => []
  | l => [l]

/-- `σ0` message-schedule function. -/
def smallSigma0 (x : Nat) : Nat := rotr32 7 x ^^^ rotr32 18 x ^^^ (x >>> 3)

/-- `σ1` message-schedule function. -/
def smallSigma1 (x : Nat) : Nat := rotr32 17 x ^^^ rotr32 19 x ^^^ (x >>> 10)

/-- `Σ0` compression function. -/
def bigSigma0 (x : Nat) : Nat := rotr32 2 x ^^^ rotr32 13 x ^^^ rotr32 22 x

/-- `Σ1` compression function. -/
def bigSigma1 (x : Nat) : Nat := rotr32 6 x ^^^ rotr32 11 x ^^^ rotr32 25 x

/-- `Ch(x,y,z)`. -/
def chFun (x y z : Nat) : Nat :=
  (x &&& y) ^^^ ((x ^^^ 0xffffffff) &&& z)

/-- `Maj(x,y,z)`. -/
def majFun (x y z : Nat) : Nat :=
  (x &&& y) ^^^ (x &&& z) ^^^ (y &&& z)

/-- Extend a 16-word block to the 64-word message schedule. -/
def buildSchedule (w : List Nat) : Nat → List Nat
  | 0 => w
  | n + 1 =>
    let len := w.length
    let next := add32
      (add32 (smallSigma1 (w.getD (len - 2) 0)) (w.getD (len - 7) 0))
      (add32 (smallSigma0 (w.getD (len - 15) 0)) (w.getD (len - 16) 0))
    buildSchedule (w ++ [next]) n

/-- One compression round on the 8-word state. -/
def sha256Round (st : List Nat) (k w : Nat) : List Nat :=
  match st with
  | [a, b, c, d, e, f, g, h] =>
    let t1 := add32 (add32 (add32 h (bigSigma1 e)) (add32 (chFun e f g) k)) w
    let t2 := add32 (bigSigma0 a) (majFun a b c)
    [add32 t1 t2, a, b, c, add32 d t1, e, f, g]
  | st => st

/-- Process one 16-word block. -/
def sha256Block (h : List Nat) (block : List Nat) : List Nat :=
  let w := buildSchedule block 48
  let st := (sha256K.zip w).foldl (fun st p => sha256Round st p.1 p.2) h
  List.zipWith add32 h st

/-- SHA-256 digest (8 words) of a byte list. -/
def sha256Words (msg : List Nat) : List Nat :=
  (chunkWords (toWords (sha256Pad msg))).foldl sha256Block sha256H0

/-- Fixed-width 8-digit lowercase hexadecimal rendering of a word. -/
def toHex8 (n : Nat) : List Char :=
  [hexDigit ((n >>> 28) % 16), hexDigit ((n >>> 24) % 16),
   hexDigit ((n >>> 20) % 16), hexDigit ((n >>> 16) % 16),
   hexDigit ((n >>> 12) % 16), hexDigit ((n >>> 8) % 16),
   hexDigit ((n >>> 4) % 16), hexDigit (n % 16)]

/-- `hashlib.sha256(bytes).hexdigest()`. -/
def sha256hex (msg : List Nat) : String :=
  String.mk ((sha256Words msg).foldr (fun w acc => toHex8 w ++ acc) [])

/-- UTF-8 encoding of one character. -/
def utf8Char (c : Char) : List Nat :=
  let n := c.toNat
  if n < 128 then [n]
  else if n < 2048 then [192 + n / 64, 128 + n % 64]
  else if n < 65536 then [224 + n / 4096, 128 + (n / 64) % 64, 128 + n % 64]
  else [240 + n / 262144, 128 + (n / 4096) % 64, 128 + (n / 64) % 64,
    128 + n % 64]

/-- `s.encode("utf8")`. -/
def utf8Bytes (s : String) : List Nat :=
  s.data.foldr (fun c acc => utf8Char c ++ acc) []

/-! ## The requirement model: `VCSRequirement`, `PackageRequirement` -/

mutual

/-- Python `repr` of a value (`%r` / `!r` formatting), adequate for the
scalar and collection values this module formats into error messages
(strings are shown in single quotes; escape subtleties of `repr` are not
reached by any value this module formats). -/
def pyRepr : Value → String
  | .none => "None"
  | .bool b => if b then "True" else "False"
  | .int n => toString n
  | .str s => "'" ++ s ++ "'"
  | .list l => "[" ++ String.intercalate ", " (pyReprList l) ++ "]"
  | .tup l => "(" ++ String.intercalate ", " (pyReprList l) ++ ")"
  | .dict l => "\x7b" ++ String.intercalate ", " (pyReprItems l) ++ "\x7d"
  | .vcsRequirement a b c d =>
    "VCSRequirement(vcs_name=" ++ pyRepr a ++ ", ref=" ++ pyRepr b ++
      ", uri=" ++ pyRepr c ++ ", subdirectory=" ++ pyRepr d ++ ")"

/-- `repr` of list elements. -/
def pyReprList : List Value → List String
  | [] => []
  | e :: rest => pyRepr e :: pyReprList rest

/-- `repr` of dict items. -/
def pyReprItems : List (String × Value) → List String
  | [] => []
  | (k, v) :: rest => ("'" ++ k ++ "': " ++ pyRepr v) :: pyReprItems rest

end

mutual

/-- `attr.asdict` applied to a field value: attrs instances become plain
dicts, tuples become lists, and collections are converted recursively. -/
def asdictVal : Value → Value
  | .list l => .list (asdictList l)
  | .tup l => .list (asdictList l)
  | .dict l => .dict (asdictItems l)
  | .vcsRequirement a b c d =>
    .dict [("vcs_name", asdictVal a), ("ref", asdictVal b),
      ("uri", asdictVal c), ("subdirectory", asdictVal d)]
  | v => v

/-- `asdict` over list elements. -/
def asdictList : List Value → List Value
  | [] => []
  | e :: rest => asdictVal e :: asdictList rest

/-- `asdict` over dict entries. -/
def asdictItems : List (String × Value) → List (String × Value)
  | [] => []
  | (k, v) :: rest => (k, asdictVal v) :: asdictItems rest

end

/-- `(lookupKey l k).getD d` — `d.get(k, default)`. -/
def getDKey (l : List (String × Value)) (k : String) (d : Value) : Value :=
  (lookupKey l k).getD d

/-- The attrs class `PackageRequirement` (lines 171-186): every field is a
Python value; defaults are `name=None`, `extras=tuple()`, `specs=None`,
`editable=False`, `vcs=None`, `version=None`, `markers=None`. -/
structure PackageRequirement where
  name : Value := .none
  extras : Value := .tup []
  specs : Value := .none
  editable : Value := .bool false
  vcs : Value := .none
  version : Value := .none
  markers : Value := .none

/-- `VCSRequirement(**vcs_dict)` (attrs `__init__`): `vcs_name` has no
default and is required — `TypeError` when absent; `ref`, `uri` and
`subdirectory` default to `None`.  (`vcs_dict` is built internally and
only ever holds these four keys.) -/
def mkVCSRequirement (d : List (String × Value)) : Except PyErr Value :=
  match lookupKey d "vcs_name" with
  | some vn =>
    Except.ok (.vcsRequirement vn (getDKey d "ref" .none)
      (getDKey d "uri" .none) (getDKey d "subdirectory" .none))
  | Option.none =>
    Except.error
      (.typeError "missing 1 required positional argument: vcs_name")

/-- The keyword names accepted by `PackageRequirement.__init__`. -/
def requirementFields : List String :=
  ["name", "extras", "specs", "editable", "vcs", "version", "markers"]

/-- `cls(**data)` for `PackageRequirement`: any key outside the attrs
fields is an unexpected keyword argument (`TypeError`); missing fields
take their defaults. -/
def mkPackageRequirement (entries : List (String × Value)) :
    Except PyErr PackageRequirement :=
  match entries.find? (fun p => !(requirementFields.contains p.1)) with
  | some p =>
    Except.error (.typeError ("unexpected keyword argument '" ++ p.1 ++ "'"))
  | Option.none =>
    Except.ok
      { name := getDKey entries "name" .none
        extras := getDKey entries "extras" (.tup [])
        specs := getDKey entries "specs" .none
        editable := getDKey entries "editable" (.bool false)
        vcs := getDKey entries "vcs" .none
        version := getDKey entries "version" .none
        markers := getDKey entries "markers" .none }

/-- The state threaded through the two loops of `from_json`: the remaining
`data` entries and the accumulated `vcs_dict`. -/
def vcsStep (st : List (String × Value) × List (String × Value))
    (vcs_key : String) :
    Except PyErr (List (String × Value) × List (String × Value)) :=
  let (entries, vcsDict) := st
  let (uriOpt, entries') := popKey entries vcs_key
  let uri := uriOpt.getD .none
  if uri.truthy = false then Except.ok (entries', vcsDict)
  else if vcsDict.isEmpty = false then
    Except.error (.valueError "saw multiple vcs keys!")
  else
    Except.ok (entries', [("vcs_name", Value.str vcs_key), ("uri", uri)])

/-- The `for key in ('ref', 'subdirectory')` loop body: pops the key,
raises only when the value is truthy and `vcs_dict` is still empty, and
then unconditionally stores the key (possibly `None`) into `vcs_dict`. -/
def refStep (st : List (String × Value) × List (String × Value))
    (key : String) :
    Except PyErr (List (String × Value) × List (String × Value)) :=
  let (entries, vcsDict) := st
  let (valOpt, entries') := popKey entries key
  let value := valOpt.getD .none
  if value.truthy && vcsDict.isEmpty then
    Except.error
      (.valueError (pyRepr value ++ " only valid with vcs requirement"))
  else Except.ok (entries', setKey vcsDict key value)

/-- `PackageRequirement.from_json(data, name=None)` (lines 196-218).  Note
the parameter order of the source: the raw value is `data` and the
requirement name is the second, optional parameter.  `data['name'] = name`
requires `data` to be a dict (a `TypeError` on the short string form);
`dict(data)` likewise fails on non-dict values. -/
def PackageRequirement.from_json (data : Value) (name : Value := .none) :
    Except PyErr PackageRequirement := do
  let data1 ←
    if name.truthy then
      match data with
      | .dict l => pure (Value.dict (setKey l "name" name))
      | _ =>
        throw (.typeError "object does not support item assignment")
    else pure data
  let entries ←
    match data1 with
    | .dict l => pure l
    | .str _ =>
      throw (.valueError "dictionary update sequence element has bad length")
    | _ => throw (.typeError "object is not iterable")
  let (entries, vcsDict) ←
    ["git", "svn", "hg", "bzr"].foldlM vcsStep (entries, [])
  let (entries, vcsDict) ←
    ["ref", "subdirectory"].foldlM refStep (entries, vcsDict)
  let entries ←
    if vcsDict.isEmpty then pure entries
    else do
      let v ← mkVCSRequirement vcsDict
      pure (setKey entries "vcs" v)
  mkPackageRequirement entries

/-- Is a value the `None` singleton? (`v is not None` filtering). -/
def isNone : Value → Bool
  | .none => true
  | _ => false

/-- `PackageRequirement.to_json` (lines 188-194): `dct = attr.asdict(self)`
(which converts a `VCSRequirement` field to a plain dict), pop `vcs` and
`name`; when the popped `vcs` is truthy the code calls `vcs.to_json()` on
that plain dict, which has no such attribute — `AttributeError`.  With
`vcs` falsy the remaining fields are emitted in attrs order, dropping
`None` values. -/
def PackageRequirement.to_json (r : PackageRequirement) :
    Except PyErr Value :=
  let vcsd := asdictVal r.vcs
  if vcsd.truthy then
    Except.error (.attributeError "object has no attribute to_json")
  else
    Except.ok (.dict
      (([("extras", asdictVal r.extras), ("specs", asdictVal r.specs),
         ("editable", asdictVal r.editable),
         ("version", asdictVal r.version),
         ("markers", asdictVal r.markers)]).filter
        (fun p => !(isNone p.2))))

/-! ## The lock model: `LockedPipfile` -/

/-- The attrs class `LockedPipfile` (lines 277-300): two dependency groups
and the `_meta` payload (held as plain values). -/
structure LockedPipfile where
  default : Value
  develop : Value
  meta : Value

/-- `LockedPipfile.to_json` (lines 283-288): the dict literal first
evaluates `self.meta.to_dict()`; no class in this module defines
`to_dict` (`LockMeta` defines only `to_json`), so every call raises
`AttributeError` before the dependency groups are touched. -/
def LockedPipfile.to_json (_x : LockedPipfile) : Except PyErr Value :=
  Except.error (.attributeError "object has no attribute to_dict")

/-- `LockedPipfile.from_json(dct)` (lines 290-300): pops `_meta`, then
builds each group with `LockedRequirement.from_json(k, r)` — but the
inherited signature is `from_json(data, name=None)`, so the string key is
passed as the raw data and every non-empty group fails inside
`PackageRequirement.from_json`; with both groups empty the final
`readonly_dict` (never defined in the module; the import is spelled
`readonlydict`) raises `NameError`.  The swap of `default`/`develop` in
the `cls(...)` call is therefore unreachable. -/
def LockedPipfile.from_json (dct : Value) : Except PyErr LockedPipfile := do
  let entries ←
    match dct with
    | .dict l => pure l
    | _ => throw (.typeError "object is not subscriptable")
  let (_metaOpt, entries1) := popKey entries "_meta"
  let (defOpt, entries2) := popKey entries1 "default"
  let defGroup ←
    match defOpt.getD (.dict []) with
    | .dict l => pure l
    | _ => throw (.attributeError "object has no attribute items")
  let _ ← defGroup.foldlM
    (fun (acc : List PackageRequirement) (p : String × Value) => do
      let r ← PackageRequirement.from_json (.str p.1) p.2
      pure (r :: acc)) []
  let (devOpt, _entries3) := popKey entries2 "develop"
  let devGroup ←
    match devOpt.getD (.dict []) with
    | .dict l => pure l
    | _ => throw (.attributeError "object has no attribute items")
  let _ ← devGroup.foldlM
    (fun (acc : List PackageRequirement) (p : String × Value) => do
      let r ← PackageRequirement.from_json (.str p.1) p.2
      pure (r :: acc)) []
  throw (.nameError "name 'readonly_dict' is not defined")

/-! ## `PipfileParser.parse` and the `Pipfile` façade -/

/-- The `default_config` literal of `PipfileParser.parse` (lines 97-102). -/
def default_config : List (String × Value) :=
  [("source", .list [.dict
      [("url", .str "https://pypi.python.org/simple"),
       ("verify_ssl", .bool true), ("name", .str "pypi")]]),
   ("packages", .dict []),
   ("requires", .dict []),
   ("dev-packages", .dict [])]

/-- `PipfileParser.parse(inject_env)` (lines 91-132) applied to the
already-TOML-parsed tree `parsed` (the TOML reader is an external
collaborator): `config = {}` updated with the defaults, then updated with
the (optionally environment-injected) parsed tree — a top-level override —
and finally assembled into
`\x7b'_meta': \x7b'sources', 'requires'\x7d, 'default', 'develop'\x7d`. -/
def PipfileParser.parse (env : List (String × String))
    (parsed : List (String × Value)) (inject_env : Bool := true) :
    Except PyErr Value := do
  let config := dictUpdate [] default_config
  let config ←
    if inject_env then do
      let injected ← inject_environment_variables env (.dict parsed)
      match injected with
      | .dict l => pure (dictUpdate config l)
      | _ => throw (.typeError "update expected a mapping")
    else pure (dictUpdate config parsed)
  let sources ← getKey config "source"
  let requires ← getKey config "requires"
  let packages ← getKey config "packages"
  let devPackages ← getKey config "dev-packages"
  let data : List (String × Value) :=
    [("_meta", .dict [("sources", sources), ("requires", requires)])]
  let data := dictUpdate data [("default", packages), ("develop", devPackages)]
  Except.ok (.dict data)

/-- `Pipfile.hash` (lines 344-348): SHA-256 hex digest of
`json.dumps(self.data, sort_keys=True, separators=(",", ":"))` encoded as
UTF-8. -/
def Pipfile.hash (data : Value) : Except PyErr String :=
  (dumps data).map fun content => sha256hex (utf8Bytes content)

/-- The effect of `Pipfile.lock` (lines 356-361) on `self.data`:
`data = self.data` aliases (does not copy) the parsed tree, then
`data['_meta']['hash'] = \x7b"sha256": self.hash\x7d` (the right-hand side
computes the hash of the not-yet-mutated data) and
`data['_meta']['pipfile-spec'] = 6` assign into it in place.  The JSON
text the method returns (`json.dumps(data, indent=4, ...)`) is a render of
this mutated state and is not needed by the claims. -/
def Pipfile.lockData (data : Value) : Except PyErr Value := do
  let h ← Pipfile.hash data
  match data with
  | .dict l => do
    let meta ← getKey l "_meta"
    match meta with
    | .dict m =>
      let m1 := setKey m "hash" (.dict [("sha256", .str h)])
      let m2 := setKey m1 "pipfile-spec" (.int 6)
      Except.ok (.dict (setKey l "_meta" (.dict m2)))
    | _ => throw (.typeError "object does not support item assignment")
  | _ => throw (.typeError "object is not subscriptable")

/-- The live host attributes read by `Pipfile.assert_requirements`
(`os.name`, `sys.platform`, the `platform` module and
`sys.implementation`); external introspection, supplied as a snapshot. -/
structure Host where
  os_name : String
  sys_platform : String
  platform_machine : String
  platform_python_implementation : String
  platform_release : String
  platform_system : String
  platform_version : String
  python_full_version : String
  implementation_name : String
  implementation_version : String

/-- The `lookup` dict of `Pipfile.assert_requirements` (lines 378-390).
Note `'python_version': platform.python_version()[:3]` — only the first
three characters of the full interpreter version. -/
def hostLookup (h : Host) : List (String × String) :=
  [("os_name", h.os_name), ("sys_platform", h.sys_platform),
   ("platform_machine", h.platform_machine),
   ("platform_python_implementation", h.platform_python_implementation),
   ("platform_release", h.platform_release),
   ("platform_system", h.platform_system),
   ("platform_version", h.platform_version),
   ("python_version", h.python_full_version.take 3),
   ("python_full_version", h.python_full_version),
   ("implementation_name", h.implementation_name),
   ("implementation_version", h.implementation_version)]

/-- Python `==` between a host lookup string and a TOML specifier value
(`str.__eq__` is `False` for non-string operands). -/
def strEqValue (s : String) (v : Value) : Bool :=
  match v with
  | .str t => s = t
  | _ => false

/-- `'Specifier \x7b!r\x7d does not match \x7b!r\x7d.'.format(marker,
specifier)` — the `AssertionError` message carries the marker and the
expected specifier, not the live host value. -/
def mismatchMsg (marker : String) (specifier : Value) : String :=
  "Specifier " ++ pyRepr (.str marker) ++ " does not match " ++
    pyRepr specifier ++ "."

/-- The body of the `for marker, specifier in ...requires.items()` loop of
`assert_requirements`: markers absent from the host lookup are skipped,
known markers must compare equal to their specifier. -/
def checkMarker (host : Host) (_ : Unit) (p : String × Value) :
    Except PyErr Unit :=
  match envLookup (hostLookup host) p.1 with
  | some actual =>
    if strEqValue actual p.2 then Except.ok ()
    else Except.error (.assertionError (mismatchMsg p.1 p.2))
  | Option.none => Except.ok ()

/-- `Pipfile.assert_requirements` (lines 363-399) over the parsed data:
for each entry of `self.data['_meta']['requires']` whose marker is a key
of the host lookup, assert that the host value equals the specifier;
markers unknown to the lookup are skipped. -/
def Pipfile.assert_requirements (host : Host) (data : Value) :
    Except PyErr Unit := do
  let l ←
    match data with
    | .dict l => pure l
    | _ => throw (.typeError "object is not subscriptable")
  let meta ← getKey l "_meta"
  let ml ←
    match meta with
    | .dict ml => pure ml
    | _ => throw (.typeError "object is not subscriptable")
  let req ← getKey ml "requires"
  let rl ←
    match req with
    | .dict rl => pure rl
    | _ => throw (.attributeError "object has no attribute items")
  rl.foldlM (checkMarker host) ()

/-- `Pipfile.find(max_depth=3)` (lines 322-334) over an abstract upward
walk: `levels` lists, for the start directory and each parent up to the
filesystem root (where `walk_up` stops), whether it contains a file named
`Pipfile`.  The counter `i` is incremented at each level and the check is
guarded by the strict `i < max_depth`; `if 'Pipfile':` is constant-true.
On success the index of the hit directory is returned (standing for
`os.path.join(c, 'Pipfile')`); exhaustion raises
`RuntimeError('No Pipfile found!')`. -/
def Pipfile.findFrom (max_depth : Nat) : List Bool → Nat → Except PyErr Nat
  | [], _ => Except.error (.runtimeError "No Pipfile found!")
  | has :: rest, i =>
    let i' := i + 1
    if i' < max_depth && has then Except.ok i
    else Pipfile.findFrom max_depth rest i'

/-- `Pipfile.find` with its default depth. -/
def Pipfile.find (levels : List Bool) (max_depth : Nat := 3) :
    Except PyErr Nat :=
  Pipfile.findFrom max_depth levels 0

/-! ## Shared concrete data for the claims -/

/-- Parsed-manifest shape with a given `requires` table (the only part
`assert_requirements` reads). -/
def requiresData (rs : List (String × Value)) : Value :=
  .dict [("_meta", .dict [("sources", .list []), ("requires", .dict rs)]),
         ("default", .dict []), ("develop", .dict [])]

/-- The `sources` entry of a parsed manifest's `_meta`. -/
def metaSources (v : Value) : Option Value :=
  match v with
  | .dict l =>
    match lookupKey l "_meta" with
    | some (.dict m) => lookupKey m "sources"
    | _ => Option.none
  | _ => Option.none

/-- The key list of a parsed manifest's `_meta` table. -/
def metaKeys (v : Value) : List String :=
  match v with
  | .dict l =>
    match lookupKey l "_meta" with
    | some (.dict m) => keysOf m
    | _ => []
  | _ => []

/-- A host snapshot whose OS name is `nt` and whose full interpreter
version is `3.10.4`. -/
def hostNT : Host :=
  { os_name := "nt", sys_platform := "win32", platform_machine := "AMD64",
    platform_python_implementation := "CPython", platform_release := "10",
    platform_system := "Windows", platform_version := "10.0.19041",
    python_full_version := "3.10.4", implementation_name := "cpython",
    implementation_version := "3.10.4" }

/-- The same host with a different live OS name (all else equal). -/
def hostOther : Host :=
  { os_name := "java", sys_platform := "win32", platform_machine := "AMD64",
    platform_python_implementation := "CPython", platform_release := "10",
    platform_system := "Windows", platform_version := "10.0.19041",
    python_full_version := "3.10.4", implementation_name := "cpython",
    implementation_version := "3.10.4" }

/-- The `_meta` table of the spec's end-to-end example manifest, as
produced by `PipfileParser.parse`. -/
def exampleMeta : List (String × Value) :=
  [("sources", .list [.dict
      [("url", .str "https://pypi.org/simple"),
       ("verify_ssl", .bool true), ("name", .str "pypi")]]),
   ("requires", .dict [])]

/-- The parsed data of the spec's end-to-end example manifest
(`[[source]] pypi.org/simple; [packages] numpy = "==1.13.1"`). -/
def exampleEntries : List (String × Value) :=
  [("_meta", .dict exampleMeta),
   ("default", .dict [("numpy", .str "==1.13.1")]),
   ("develop", .dict [])]

/-- The example manifest data as a value. -/
def exampleData : Value := .dict exampleEntries

/-- The TOML tree of the example manifest, before merging. -/
def exampleParsed : List (String × Value) :=
  [("source", .list [.dict
      [("url", .str "https://pypi.org/simple"),
       ("verify_ssl", .bool true), ("name", .str "pypi")]]),
   ("packages", .dict [("numpy", .str "==1.13.1")])]

/-! ## Lemmas on the `assert_requirements` loop -/

theorem checkMarker_fold_ok (host : Host) (rs : List (String × Value)) :
    rs.foldlM (checkMarker host) () = Except.ok () ↔
      ∀ p ∈ rs, ∀ actual, envLookup (hostLookup host) p.1 = some actual →
        strEqValue actual p.2 = true := by
  induction rs with
  | nil => simp [List.foldlM]
  | cons p rest ih =>
    match henv : envLookup (hostLookup host) p.1 with
    | some actual =>
      by_cases heq : strEqValue actual p.2 = true
      · simp only [List.foldlM, checkMarker, henv, heq, if_true, ok_bind]
        rw [ih]
        constructor
        · intro h
          intro q hq a ha
          rcases List.mem_cons.mp hq with rfl | hq'
          · rw [henv] at ha
            cases ha
            exact heq
          · exact h q hq' a ha
        · intro h q hq a ha
          exact h q (List.mem_cons_of_mem _ hq) a ha
      · simp only [List.foldlM, checkMarker, henv, heq, if_false]
        simp only [Bool.not_eq_true] at heq
        constructor
        · intro h
          simp [error_bind] at h
        · intro h
          have := h p (List.mem_cons_self _ _) actual henv
          rw [heq] at this
          cases this
    | Option.none =>
      simp only [List.foldlM, checkMarker, henv, ok_bind]
      rw [ih]
      constructor
      · intro h q hq a ha
        rcases List.mem_cons.mp hq with rfl | hq'
        · rw [henv] at ha
          cases ha
        · exact h q hq' a ha
      · intro h q hq a ha
        exact h q (List.mem_cons_of_mem _ hq) a ha

theorem checkMarker_fold_err (host : Host) (rs : List (String × Value))
    (e : PyErr) (h : rs.foldlM (checkMarker host) () = Except.error e) :
    ∃ p, p ∈ rs ∧ ∃ actual,
      envLookup (hostLookup host) p.1 = some actual ∧
      strEqValue actual p.2 = false ∧
      e = .assertionError (mismatchMsg p.1 p.2) := by
  induction rs with
  | nil => simp [List.foldlM] at h
  | cons p rest ih =>
    match henv : envLookup (hostLookup host) p.1 with
    | some actual =>
      by_cases heq : strEqValue actual p.2 = true
      · simp only [List.foldlM, checkMarker, henv, heq, if_true, ok_bind] at h
        obtain ⟨q, hq, rest'⟩ := ih h
        exact ⟨q, List.mem_cons_of_mem _ hq, rest'⟩
      · simp only [List.foldlM, checkMarker, henv, heq, if_false,
          error_bind] at h
        simp only [Bool.not_eq_true] at heq
        cases h
        exact ⟨p, List.mem_cons_self _ _, actual, henv, heq, rfl⟩
    | Option.none =>
      simp only [List.foldlM, checkMarker, henv, ok_bind] at h
      obtain ⟨q, hq, rest'⟩ := ih h
      exact ⟨q, List.mem_cons_of_mem _ hq, rest'⟩

theorem assert_requirements_requiresData (host : Host)
    (rs : List (String × Value)) :
    Pipfile.assert_requirements host (requiresData rs) =
      rs.foldlM (checkMarker host) () := by
  simp [Pipfile.assert_requirements, requiresData, getKey, lookupKey]

/-! ## Claim theorems -/

/-- C4 (amended): `assert_requirements` succeeds iff every marker of
`hostRequires` that is known to the host lookup equals its specifier —
unknown markers are ignored and never cause an error — and every failure
is an `AssertionError` whose message is built from the mismatched marker
and the expected specifier only (`mismatchMsg`); the live host value does
not appear in it. -/
theorem claim_C4_mismatch_error (host : Host) (rs : List (String × Value)) :
    (Pipfile.assert_requirements host (requiresData rs) = Except.ok () ↔
      ∀ p ∈ rs, ∀ actual, envLookup (hostLookup host) p.1 = some actual →
        strEqValue actual p.2 = true) ∧
    (∀ e, Pipfile.assert_requirements host (requiresData rs) =
        Except.error e →
      ∃ p, p ∈ rs ∧ ∃ actual,
        envLookup (hostLookup host) p.1 = some actual ∧
        strEqValue actual p.2 = false ∧
        e = .assertionError (mismatchMsg p.1 p.2)) ∧
    ((¬ ∀ p ∈ rs, ∀ actual, envLookup (hostLookup host) p.1 = some actual →
        strEqValue actual p.2 = true) →
      ∃ e, Pipfile.assert_requirements host (requiresData rs) =
        Except.error e) := by
  rw [assert_requirements_requiresData]
  refine ⟨checkMarker_fold_ok host rs,
    fun e he => checkMarker_fold_err host rs e he, ?_⟩
  intro hnot
  match hres : rs.foldlM (checkMarker host) () with
  | .ok u =>
    cases u
    exact absurd ((checkMarker_fold_ok host rs).mp hres) hnot
  | .error e => exact ⟨e, rfl⟩

/-- Witness for C4: on the `nt` host, `requires = {"os_name": "posix"}`
fails with the error naming `os_name` and `posix`, and a table with only
an unknown marker passes. -/
theorem claim_C4_witness :
    Pipfile.assert_requirements hostNT
        (requiresData [("os_name", Value.str "posix")]) =
      Except.error
        (.assertionError "Specifier 'os_name' does not match 'posix'.") ∧
    Pipfile.assert_requirements hostNT
        (requiresData [("flavor", Value.str "vanilla")]) = Except.ok () := by
  constructor
  · rfl
  · refine (claim_C4_mismatch_error hostNT
      [("flavor", Value.str "vanilla")]).1.mpr ?_
    intro p hp a ha
    rcases List.mem_singleton.mp hp with rfl
    simp [hostLookup, envLookup, hostNT] at ha

/-- C4 counterexample: two hosts whose live OS names differ produce
byte-identical `AssertionError`s for `requires = {"os_name": "posix"}`;
the raised error therefore cannot name the actual host value, contrary to
the claim. -/
theorem claim_C4_counterexample :
    Pipfile.assert_requirements hostNT
        (requiresData [("os_name", Value.str "posix")]) =
      Except.error
        (.assertionError "Specifier 'os_name' does not match 'posix'.") ∧
    Pipfile.assert_requirements hostOther
        (requiresData [("os_name", Value.str "posix")]) =
      Except.error
        (.assertionError "Specifier 'os_name' does not match 'posix'.") ∧
    hostNT.os_name ≠ hostOther.os_name :=
  ⟨rfl, rfl, by decide⟩

/-- C10: the host lookup binds `python_version` to the first three
characters of `platform.python_version()`, so a `python_version`
requirement succeeds exactly when it equals that 3-character prefix; on a
host whose full version is `3.10.4` the compared value is `3.1`, so
`"3.1"` passes and `"3.10"` fails. -/
theorem claim_C10_python_version_prefix :
    (∀ h : Host, envLookup (hostLookup h) "python_version" =
      some (h.python_full_version.take 3)) ∧
    (∀ (h : Host) (v : String),
      Pipfile.assert_requirements h
          (requiresData [("python_version", .str v)]) = Except.ok () ↔
        h.python_full_version.take 3 = v) ∧
    Pipfile.assert_requirements hostNT
        (requiresData [("python_version", .str "3.1")]) = Except.ok () ∧
    Pipfile.assert_requirements hostNT
        (requiresData [("python_version", .str "3.10")]) =
      Except.error
        (.assertionError "Specifier 'python_version' does not match '3.10'.")
    := by
  have hlook : ∀ h : Host, envLookup (hostLookup h) "python_version" =
      some (h.python_full_version.take 3) := by
    intro h
    simp [hostLookup, envLookup]
  refine ⟨hlook, ?_, rfl, rfl⟩
  intro h v
  rw [assert_requirements_requiresData]
  rw [checkMarker_fold_ok]
  constructor
  · intro hall
    have := hall ("python_version", Value.str v) (List.mem_singleton.mpr rfl)
      (h.python_full_version.take 3) (hlook h)
    simpa [strEqValue] using this
  · intro hv p hp a ha
    rcases List.mem_singleton.mp hp with rfl
    rw [hlook h] at ha
    cases ha
    simpa [strEqValue] using hv

/-- C5 (amended): on the injector's handled fragment — strings; dicts
whose values are strings, handled dicts, scalars, or lists of handled
trees; falsy values — `inject_environment_variables` succeeds and equals
the pure shape-preserving transform `injectPure`, which maps
`os.path.expandvars` over every string leaf.  References to undefined
variables are left unchanged by `expandvars` (see the counterexample); a
truthy value that is neither a string nor a dict (a bare scalar, tuple, or
non-empty list at the top level or as a list element) raises
`AttributeError` instead. -/
theorem claim_C5_inject_shape (env : List (String × String)) (v : Value)
    (h : handledTree v = true) :
    inject_environment_variables env v = Except.ok (injectPure env v) :=
  inject_eq_pure env v h

/-- Witness for C5: a two-level manifest fragment with a defined variable
is injected shape-preservingly. -/
theorem claim_C5_witness :
    handledTree (Value.dict
      [("a", .str "$\x7bHOME\x7d/x"),
       ("b", .list [.str "$\x7bHOME\x7d", .dict []]),
       ("c", .int 5)]) = true ∧
    inject_environment_variables [("HOME", "/root")] (Value.dict
      [("a", .str "$\x7bHOME\x7d/x"),
       ("b", .list [.str "$\x7bHOME\x7d", .dict []]),
       ("c", .int 5)]) =
      Except.ok (Value.dict
        [("a", .str "/root/x"),
         ("b", .list [.str "/root", .dict []]),
         ("c", .int 5)]) := by
  refine ⟨rfl, ?_⟩
  rw [claim_C5_inject_shape [("HOME", "/root")]
    (Value.dict
      [("a", .str "$\x7bHOME\x7d/x"),
       ("b", .list [.str "$\x7bHOME\x7d", .dict []]),
       ("c", .int 5)]) rfl]
  simp [injectPure, injectPureItems, injectPureList, expandvars,
    expandVarsAux, splitAtBrace, envLookup, obrace, cbrace, String.mk]

/-- C5 counterexample: expanding `$\x7bUNDEFINED\x7d` with an empty
environment returns the reference unchanged — the claim expects the blank
string — and a bare truthy scalar raises `AttributeError` instead of
coming back in shape. -/
theorem claim_C5_counterexample :
    inject_environment_variables [] (.str "$\x7bUNDEFINED\x7d") =
      Except.ok (.str "$\x7bUNDEFINED\x7d") ∧
    inject_environment_variables [] (.int 5) =
      Except.error (.attributeError "object has no attribute items") := by
  constructor
  · simp [inject_environment_variables, Value.truthy, expandvars,
      expandVarsAux, splitAtBrace, envLookup, obrace, cbrace, String.mk]
  · rfl

/-! ## The `find` characterization (C3) -/

theorem findFrom_ok_iff (m : Nat) (levels : List Bool) (i r : Nat) :
    Pipfile.findFrom m levels i = Except.ok r ↔
      ∃ j, j < levels.length ∧ r = i + j ∧ i + j + 1 < m ∧
        levels.getD j false = true ∧
        ∀ j' < j, levels.getD j' false = false := by
  induction levels generalizing i with
  | nil => simp [Pipfile.findFrom]
  | cons has rest ih =>
    simp only [Pipfile.findFrom]
    by_cases hg : (i + 1 < m ∧ has = true)
    · rw [if_pos (by simp [hg.1, hg.2])]
      constructor
      · intro h
        cases h
        exact ⟨0, by simp, by omega, by omega, by simpa using hg.2,
          by omega⟩
      · rintro ⟨j, hj, rfl, hlt, hgd, hprev⟩
        match j with
        | 0 => rfl
        | jj + 1 =>
          have h0 := hprev 0 (by omega)
          simp at h0
          rw [h0] at hg
          exact absurd hg.2 (by simp)
    · rw [if_neg (by simpa [Bool.and_eq_true, decide_eq_true_eq] using hg)]
      rw [ih (i + 1)]
      constructor
      · rintro ⟨j, hj, rfl, hlt, hgd, hprev⟩
        have hhas : has = false := by
          cases has
          · rfl
          · exact absurd ⟨by omega, rfl⟩ hg
        refine ⟨j + 1, by simpa using hj, by omega, by omega,
          by simpa using hgd, ?_⟩
        intro j' hj'
        match j' with
        | 0 => simpa using hhas
        | jj + 1 =>
          have := hprev jj (by omega)
          simpa using this
      · rintro ⟨j, hj, rfl, hlt, hgd, hprev⟩
        match j with
        | 0 =>
          simp at hgd
          exact absurd ⟨by omega, hgd⟩ hg
        | jj + 1 =>
          refine ⟨jj, by simpa using hj, by omega, by omega,
            by simpa using hgd, ?_⟩
          intro j' hj'
          have := hprev (j' + 1) (by omega)
          simpa using this

/-- C3 (amended): `find` walks upward and checks strictly fewer than
`maxDepth` directory levels — the guard `i < max_depth` is tested after
the increment, so level `l` (0-based) is checked only when `l + 1 <
maxDepth` — returning the first such level containing a manifest and
raising the not-found error otherwise, also when the walk reaches the
filesystem root first.  A manifest in the direct parent (level 1) is still
found with the default `maxDepth = 3`. -/
theorem claim_C3_find_depth (levels : List Bool) (m r : Nat) :
    (Pipfile.find levels m = Except.ok r ↔
      r < levels.length ∧ r + 1 < m ∧ levels.getD r false = true ∧
      ∀ j < r, levels.getD j false = false) ∧
    Pipfile.find [false, true] = Except.ok 1 := by
  constructor
  · rw [Pipfile.find, findFrom_ok_iff]
    constructor
    · rintro ⟨j, hj, rfl, hlt, hgd, hprev⟩
      refine ⟨by omega, by omega, by simpa using hgd, ?_⟩
      intro j' hj'
      exact hprev j' (by omega)
    · rintro ⟨hr, hlt, hgd, hprev⟩
      refine ⟨r, hr, by omega, by omega, hgd, ?_⟩
      intro j hj
      exact hprev j (by omega)
  · rfl

/-- C3 counterexample: with the default `maxDepth = 3` the claim demands
that a manifest three levels up (the grandparent) be found; the strict
depth guard never checks that level and `find` raises instead. -/
theorem claim_C3_counterexample :
    Pipfile.find [false, false, true] =
      Except.error (.runtimeError "No Pipfile found!") := rfl

/-! ## The multiple-VCS-keys behavior (C8) -/

theorem vcsFold_error_of_nonempty (keys : List String)
    (entries vcsDict : List (String × Value)) (hne : vcsDict ≠ [])
    (k : String) (hk : k ∈ keys)
    (ht : (getDKey entries k .none).truthy = true) :
    keys.foldlM vcsStep (entries, vcsDict) =
      Except.error (.valueError "saw multiple vcs keys!") := by
  induction keys generalizing entries with
  | nil => cases hk
  | cons k0 rest ih =>
    have hpop : ((popKey entries k0).1.getD Value.none).truthy =
        (getDKey entries k0 Value.none).truthy := by
      rw [popKey_fst]
      rfl
    by_cases h0 : (getDKey entries k0 Value.none).truthy = true
    · have hemp : vcsDict.isEmpty = false := by
        cases vcsDict
        · exact absurd rfl hne
        · rfl
      have hstep : vcsStep (entries, vcsDict) k0 =
          Except.error (.valueError "saw multiple vcs keys!") := by
        simp only [vcsStep, hpop]
        rw [if_neg (by simp [h0]), if_pos hemp]
      simp only [List.foldlM, hstep, error_bind]
    · have hstep : vcsStep (entries, vcsDict) k0 =
          Except.ok ((popKey entries k0).2, vcsDict) := by
        simp only [vcsStep, hpop]
        rw [if_pos (by simpa using h0)]
      simp only [List.foldlM, hstep, ok_bind]
      have hk' : k ∈ rest := by
        rcases List.mem_cons.mp hk with rfl | hmem
        · exact absurd ht h0
        · exact hmem
      have hkne : k0 ≠ k := by
        intro hkk
        subst hkk
        exact h0 ht
      refine ih _ hk' ?_
      simp only [getDKey]
      rw [lookupKey_popKey_ne entries k0 k hkne]
      exact ht

theorem vcsFold_two (keys : List String) (entries : List (String × Value))
    (k1 k2 : String) (h1 : k1 ∈ keys) (h2 : k2 ∈ keys) (hkk : k1 ≠ k2)
    (t1 : (getDKey entries k1 .none).truthy = true)
    (t2 : (getDKey entries k2 .none).truthy = true) :
    keys.foldlM vcsStep (entries, []) =
      Except.error (.valueError "saw multiple vcs keys!") := by
  induction keys generalizing entries with
  | nil => cases h1
  | cons k0 rest ih =>
    have hpop : ((popKey entries k0).1.getD Value.none).truthy =
        (getDKey entries k0 Value.none).truthy := by
      rw [popKey_fst]
      rfl
    by_cases h0 : (getDKey entries k0 Value.none).truthy = true
    · have hstep : vcsStep (entries, ([] : List (String × Value))) k0 =
          Except.ok ((popKey entries k0).2,
            [("vcs_name", Value.str k0), ("uri",
              ((popKey entries k0).1.getD Value.none))]) := by
        simp only [vcsStep, hpop]
        rw [if_neg (by simp [h0]), if_neg (by simp)]
      simp only [List.foldlM, hstep, ok_bind]
      rcases Decidable.eq_or_ne k1 k0 with rfl | hne1
      · -- the second witness is k2 ≠ k1 = k0
        have hk2 : k2 ∈ rest := by
          rcases List.mem_cons.mp h2 with rfl | hmem
          · exact absurd rfl hkk
          · exact hmem
        refine vcsFold_error_of_nonempty rest _ _ (by simp) k2 hk2 ?_
        simp only [getDKey]
        rw [lookupKey_popKey_ne entries k1 k2 hkk]
        exact t2
      · have hk1 : k1 ∈ rest := by
          rcases List.mem_cons.mp h1 with rfl | hmem
          · exact absurd rfl hne1
          · exact hmem
        refine vcsFold_error_of_nonempty rest _ _ (by simp) k1 hk1 ?_
        simp only [getDKey]
        rw [lookupKey_popKey_ne entries k0 k1 (Ne.symm hne1)]
        exact t1
    · have hstep : vcsStep (entries, ([] : List (String × Value))) k0 =
          Except.ok ((popKey entries k0).2, []) := by
        simp only [vcsStep, hpop]
        rw [if_pos (by simpa using h0)]
      simp only [List.foldlM, hstep, ok_bind]
      have hne1 : k0 ≠ k1 := fun hkk0 => h0 (hkk0 ▸ t1)
      have hne2 : k0 ≠ k2 := fun hkk0 => h0 (hkk0 ▸ t2)
      have hk1 : k1 ∈ rest := by
        rcases List.mem_cons.mp h1 with rfl | hmem
        · exact absurd rfl (Ne.symm hne1)
        · exact hmem
      have hk2 : k2 ∈ rest := by
        rcases List.mem_cons.mp h2 with rfl | hmem
        · exact absurd rfl (Ne.symm hne2)
        · exact hmem
      refine ih _ hk1 hk2 ?_ ?_
      · simp only [getDKey]
        rw [lookupKey_popKey_ne entries k0 k1 hne1]
        exact t1
      · simp only [getDKey]
        rw [lookupKey_popKey_ne entries k0 k2 hne2]
        exact t2

/-- C8 (amended): `from_json` fails with
`ValueError('saw multiple vcs keys!')` (the `MultipleVcsError`) whenever
the raw map binds more than one of `git`, `svn`, `hg`, `bzr` to a truthy
(non-empty) value; a VCS key bound to a falsy value such as `""` is popped
and skipped by `if not uri: continue` and does not count (see the
counterexample). -/
theorem claim_C8_multiple_vcs (l : List (String × Value)) (name : Value)
    (k1 k2 : String) (h1 : k1 ∈ ["git", "svn", "hg", "bzr"])
    (h2 : k2 ∈ ["git", "svn", "hg", "bzr"]) (hkk : k1 ≠ k2)
    (t1 : (getDKey l k1 .none).truthy = true)
    (t2 : (getDKey l k2 .none).truthy = true) :
    PackageRequirement.from_json (.dict l) name =
      Except.error (.valueError "saw multiple vcs keys!") := by
  have hname : ∀ k, k ∈ ["git", "svn", "hg", "bzr"] → k ≠ "name" := by
    intro k hk
    simp only [List.mem_cons, List.mem_singleton] at hk
    rcases hk with rfl | rfl | rfl | rfl | h
    · decide
    · decide
    · decide
    · decide
    · cases h
  by_cases hn : name.truthy = true
  · have hfold := vcsFold_two ["git", "svn", "hg", "bzr"]
      (setKey l "name" name) k1 k2 h1 h2 hkk
      (by simpa only [getDKey,
        lookupKey_setKey_ne l "name" k1 name (Ne.symm (hname k1 h1))]
        using t1)
      (by simpa only [getDKey,
        lookupKey_setKey_ne l "name" k2 name (Ne.symm (hname k2 h2))]
        using t2)
    simp only [PackageRequirement.from_json, hn, if_true, ok_bind,
      pure_eq_ok, hfold, error_bind]
  · have hfold := vcsFold_two ["git", "svn", "hg", "bzr"] l k1 k2 h1 h2 hkk
      t1 t2
    simp only [PackageRequirement.from_json, hn, Bool.false_eq_true,
      if_false, ok_bind, pure_eq_ok, hfold, error_bind]

/-- Witness for C8: two truthy VCS keys raise the multiple-VCS error. -/
theorem claim_C8_witness :
    PackageRequirement.from_json
        (.dict [("git", .str "https://a"), ("svn", .str "https://b")])
        (.str "random") =
      Except.error (.valueError "saw multiple vcs keys!") :=
  claim_C8_multiple_vcs _ _ "git" "svn" (by decide) (by decide) (by decide)
    rfl rfl

/-- C8 counterexample: a map containing both `git` and `svn` — but with a
falsy (blank) `git` value — does not raise `MultipleVcsError` as the claim
demands for every map with more than one VCS key; the falsy key is
silently dropped and the requirement parses with the svn VCS. -/
theorem claim_C8_counterexample :
    PackageRequirement.from_json
        (.dict [("git", .str ""), ("svn", .str "url2")]) (.str "random") =
      Except.ok
        { name := Value.str "random", extras := Value.tup [],
          specs := Value.none, editable := Value.bool false,
          vcs := Value.vcsRequirement (Value.str "svn") Value.none
            (Value.str "url2") Value.none,
          version := Value.none, markers := Value.none } := rfl

/-- C1 (code bug): the round trip `toRaw(fromRaw(name, v)) == v` can
never complete on this code.  `from_json('requests', '*')` — the module's
own short-form test call (`test_requirement_short_form`) — raises
`TypeError` because the short-form value arrives in the `data` parameter
and `data['name'] = name` is item assignment on a string; every non-VCS
long-form map raises `TypeError` because the `ref`/`subdirectory` loop
stores both keys into `vcs_dict` unconditionally, making
`VCSRequirement(**vcs_dict)` run without the required `vcs_name`; and
`to_json` raises `AttributeError` on every VCS requirement `from_json`
can build, because `attr.asdict` has already converted the
`VCSRequirement` into a plain dict with no `to_json` method. -/
theorem claim_C1_roundtrip_crashes :
    PackageRequirement.from_json (.str "requests") (.str "*") =
      Except.error (.typeError "object does not support item assignment") ∧
    PackageRequirement.from_json (.dict [("version", .str "==1.13.1")])
        (.str "numpy") =
      Except.error
        (.typeError "missing 1 required positional argument: vcs_name") ∧
    (PackageRequirement.from_json
        (.dict [("git", .str "https://a"), ("ref", .str "main")])
        (.str "unittest2")).bind PackageRequirement.to_json =
      Except.error (.attributeError "object has no attribute to_json") :=
  ⟨rfl, rfl, rfl⟩

/-- C2 (code bug): `LockedManifest.fromJson(toJson(x))` is never the
identity because both directions always raise.  `to_json` evaluates
`self.meta.to_dict()` and no class in the module defines `to_dict`
(`LockMeta` defines only `to_json`) — `AttributeError` for every
`LockedPipfile`; `from_json` on a lockfile with empty groups reaches the
undefined name `readonly_dict` — `NameError` — and any non-empty group
passes the requirement's name string as `from_json`'s `data` parameter —
`TypeError`. -/
theorem claim_C2_lock_roundtrip_crashes :
    LockedPipfile.to_json
        { default := Value.dict [], develop := Value.dict [],
          meta := Value.dict [("hash", .dict [("sha256", .str "00")])] } =
      Except.error (.attributeError "object has no attribute to_dict") ∧
    LockedPipfile.from_json
        (.dict [("_meta", .dict []), ("default", .dict []),
                ("develop", .dict [])]) =
      Except.error (.nameError "name 'readonly_dict' is not defined") ∧
    LockedPipfile.from_json
        (.dict [("_meta", .dict []),
                ("default",
                  .dict [("numpy", .dict [("version", .str "==1.13.1")])]),
                ("develop", .dict [])]) =
      Except.error (.typeError "object does not support item assignment") :=
  ⟨rfl, rfl, rfl⟩

/-! ## Digest length lemmas (C7) -/

theorem sha256Round_length (st : List Nat) (k w : Nat) :
    (sha256Round st k w).length = st.length := by
  unfold sha256Round
  split
  · simp
  · rfl

theorem foldl_rounds_length (l : List (Nat × Nat)) (h : List Nat) :
    (l.foldl (fun st p => sha256Round st p.1 p.2) h).length = h.length := by
  induction l generalizing h with
  | nil => rfl
  | cons p rest ih => rw [List.foldl_cons, ih, sha256Round_length]

theorem sha256Block_length (h block : List Nat) :
    (sha256Block h block).length = h.length := by
  unfold sha256Block
  rw [List.length_zipWith, foldl_rounds_length]
  exact Nat.min_self _

theorem foldl_blocks_length (blocks : List (List Nat)) (h : List Nat) :
    (blocks.foldl sha256Block h).length = h.length := by
  induction blocks generalizing h with
  | nil => rfl
  | cons b rest ih => rw [List.foldl_cons, ih, sha256Block_length]

theorem sha256Words_length (msg : List Nat) :
    (sha256Words msg).length = 8 := by
  unfold sha256Words
  rw [foldl_blocks_length]
  rfl

theorem hexFold_length (ws : List Nat) :
    (ws.foldr (fun w acc => toHex8 w ++ acc) []).length = 8 * ws.length := by
  induction ws with
  | nil => rfl
  | cons w rest ih =>
    rw [List.foldr_cons, List.length_append, ih, List.length_cons]
    have h8 : (toHex8 w).length = 8 := rfl
    rw [h8]
    omega

theorem sha256hex_length (msg : List Nat) : (sha256hex msg).length = 64 := by
  show (sha256hex msg).data.length = 64
  unfold sha256hex
  show ((sha256Words msg).foldr
    (fun w acc => toHex8 w ++ acc) []).length = 64
  rw [hexFold_length, sha256Words_length]

/-- C7: `Pipfile.hash` is deterministic over logical content — values
with the same normal form (equal up to dict entry order, recursively)
hash identically, permuting the entries of a duplicate-free dict
preserves the hash, and every produced digest is 64 hex characters. -/
theorem claim_C7_hash_determinism :
    (∀ d1 d2 : Value, normalize d1 = normalize d2 →
      Pipfile.hash d1 = Pipfile.hash d2) ∧
    (∀ l1 l2 : List (String × Value), l1.Perm l2 →
      (l1.map Prod.fst).Nodup →
      Pipfile.hash (.dict l1) = Pipfile.hash (.dict l2)) ∧
    (∀ (d : Value) (s : String), Pipfile.hash d = Except.ok s →
      s.length = 64) := by
  have hmain : ∀ d1 d2 : Value, normalize d1 = normalize d2 →
      Pipfile.hash d1 = Pipfile.hash d2 := by
    intro d1 d2 hnorm
    unfold Pipfile.hash
    rw [dumps_factor d1, dumps_factor d2, hnorm]
  refine ⟨hmain, ?_, ?_⟩
  · intro l1 l2 hperm hnd
    exact hmain _ _ (normalize_dict_perm hperm hnd)
  · intro d s h
    unfold Pipfile.hash at h
    match hd : dumps d with
    | .ok c =>
      rw [hd] at h
      simp only [Except.map] at h
      cases h
      exact sha256hex_length _
    | .error e =>
      rw [hd] at h
      simp [Except.map] at h

/-- Witness for C7: permuting the keys of a small manifest dict leaves
the hash unchanged. -/
theorem claim_C7_witness :
    normalize (Value.dict [("b", .int 1), ("a", .str "x")]) =
      normalize (Value.dict [("a", .str "x"), ("b", .int 1)]) ∧
    Pipfile.hash (Value.dict [("b", .int 1), ("a", .str "x")]) =
      Pipfile.hash (Value.dict [("a", .str "x"), ("b", .int 1)]) :=
  have h : normalize (Value.dict [("b", .int 1), ("a", .str "x")]) =
      normalize (Value.dict [("a", .str "x"), ("b", .int 1)]) := by
    simp +decide [normalize, normalizeItems, sortEntries,
      List.insertionSort, List.orderedInsert, keyLE]
  ⟨h, claim_C7_hash_determinism.1 _ _ h⟩

/-- C6 (amended): `hash` and `assert_requirements` only read `self.data`
(they are embedded as pure functions of the data), but `lock` mutates it:
on any parsed data whose `_meta` table lacks a `pipfile-spec` entry,
`lock` rebinds `_meta` to a strictly larger table carrying `hash` and
`pipfile-spec`, so the data after `lock` differs from the data before,
and a hash taken afterwards is computed over this grown tree. -/
theorem claim_C6_lock_mutates (l m : List (String × Value)) (s : String)
    (hm : lookupKey l "_meta" = some (.dict m))
    (hspec : lookupKey m "pipfile-spec" = Option.none)
    (hh : Pipfile.hash (.dict l) = Except.ok s) :
    Pipfile.lockData (.dict l) =
      Except.ok (.dict (setKey l "_meta" (.dict
        (setKey (setKey m "hash" (.dict [("sha256", .str s)]))
          "pipfile-spec" (.int 6))))) ∧
    Pipfile.lockData (.dict l) ≠ Except.ok (.dict l) := by
  have heq : Pipfile.lockData (.dict l) =
      Except.ok (.dict (setKey l "_meta" (.dict
        (setKey (setKey m "hash" (.dict [("sha256", .str s)]))
          "pipfile-spec" (.int 6))))) := by
    unfold Pipfile.lockData
    rw [hh]
    simp only [ok_bind, getKey, hm]
  refine ⟨heq, ?_⟩
  rw [heq]
  intro hcon
  have hl : setKey l "_meta" (.dict
      (setKey (setKey m "hash" (.dict [("sha256", .str s)]))
        "pipfile-spec" (.int 6))) = l := by
    simpa using hcon
  have h1 := lookupKey_setKey_self l "_meta" (.dict
      (setKey (setKey m "hash" (.dict [("sha256", .str s)]))
        "pipfile-spec" (.int 6)))
  rw [hl, hm] at h1
  have hmm : setKey (setKey m "hash" (.dict [("sha256", .str s)]))
      "pipfile-spec" (.int 6) = m := by
    have := h1.symm
    simpa using this
  have h2 := lookupKey_setKey_self
    (setKey m "hash" (.dict [("sha256", .str s)])) "pipfile-spec" (.int 6)
  rw [hmm, hspec] at h2
  cases h2

/-- The canonical JSON text of the example manifest data. -/
def exampleJson : String :=
  "\x7b\"_meta\":\x7b\"requires\":\x7b\x7d,\"sources\":[\x7b\"name\":\"pypi\",\"url\":\"https://pypi.org/simple\",\"verify_ssl\":true\x7d]\x7d,\"default\":\x7b\"numpy\":\"==1.13.1\"\x7d,\"develop\":\x7b\x7d\x7d"

/-- The SHA-256 of `exampleJson`. -/
def exampleHash : String :=
  "3e155d6dde02bb7633d3d347c9a459bd0ee4dce8fb27db4efbe5bdbb5fbbf51f"

/-- The example manifest data after `lock` has mutated it. -/
def lockedExampleData : Value :=
  .dict [("_meta", .dict
      [("sources", .list [.dict
          [("url", .str "https://pypi.org/simple"),
           ("verify_ssl", .bool true), ("name", .str "pypi")]]),
       ("requires", .dict []),
       ("hash", .dict [("sha256", .str exampleHash)]),
       ("pipfile-spec", .int 6)]),
   ("default", .dict [("numpy", .str "==1.13.1")]),
   ("develop", .dict [])]

theorem dumps_exampleData : dumps exampleData = Except.ok exampleJson := by
  simp +decide [exampleData, exampleEntries, exampleMeta, exampleJson,
    dumps, dumpsItems, dumpsList, sortEntries, List.insertionSort,
    List.orderedInsert, keyLE, jsonString, escapeChar, String.intercalate,
    String.intercalate.go]

set_option maxRecDepth 100000 in
theorem hash_exampleData :
    Pipfile.hash exampleData = Except.ok exampleHash := by
  unfold Pipfile.hash
  rw [dumps_exampleData]
  have hs : sha256hex (utf8Bytes exampleJson) = exampleHash := by decide
  simp [Except.map, hs]

set_option maxRecDepth 100000 in
theorem lockData_exampleData :
    Pipfile.lockData exampleData = Except.ok lockedExampleData := by
  unfold Pipfile.lockData
  rw [hash_exampleData]
  rfl

set_option maxRecDepth 100000 in
theorem dumps_lockedExampleData : dumps lockedExampleData = Except.ok
    "\x7b\"_meta\":\x7b\"hash\":\x7b\"sha256\":\"3e155d6dde02bb7633d3d347c9a459bd0ee4dce8fb27db4efbe5bdbb5fbbf51f\"\x7d,\"pipfile-spec\":6,\"requires\":\x7b\x7d,\"sources\":[\x7b\"name\":\"pypi\",\"url\":\"https://pypi.org/simple\",\"verify_ssl\":true\x7d]\x7d,\"default\":\x7b\"numpy\":\"==1.13.1\"\x7d,\"develop\":\x7b\x7d\x7d" := by
  simp +decide [lockedExampleData, exampleHash, dumps, dumpsItems,
    dumpsList, sortEntries, List.insertionSort, List.orderedInsert,
    keyLE, jsonString, escapeChar, String.intercalate,
    String.intercalate.go]

set_option maxRecDepth 100000 in
theorem hash_lockedExampleData :
    Pipfile.hash lockedExampleData = Except.ok
      "d0a1beeae01789cfac9ca25e5902d2eba8e4d3ad322f4a0a803dea7e941f1a52" := by
  unfold Pipfile.hash
  rw [dumps_lockedExampleData]
  have hs : sha256hex (utf8Bytes
      "\x7b\"_meta\":\x7b\"hash\":\x7b\"sha256\":\"3e155d6dde02bb7633d3d347c9a459bd0ee4dce8fb27db4efbe5bdbb5fbbf51f\"\x7d,\"pipfile-spec\":6,\"requires\":\x7b\x7d,\"sources\":[\x7b\"name\":\"pypi\",\"url\":\"https://pypi.org/simple\",\"verify_ssl\":true\x7d]\x7d,\"default\":\x7b\"numpy\":\"==1.13.1\"\x7d,\"develop\":\x7b\x7d\x7d") =
      "d0a1beeae01789cfac9ca25e5902d2eba8e4d3ad322f4a0a803dea7e941f1a52" := by
    decide
  simp [Except.map, hs]

/-- C6 counterexample: on the parsed data of the spec's example manifest,
`lock` grows `_meta` with `hash` and `pipfile-spec` entries, so the data
after `lock` differs from the parsed data and the hash recomputed after
`lock` differs from the hash before — refuting both the "data unchanged"
claim and its "same hash before and after" consequence. -/
theorem claim_C6_counterexample :
    Pipfile.hash exampleData = Except.ok exampleHash ∧
    Pipfile.lockData exampleData = Except.ok lockedExampleData ∧
    lockedExampleData ≠ exampleData ∧
    (Pipfile.lockData exampleData).bind Pipfile.hash =
      Except.ok
        "d0a1beeae01789cfac9ca25e5902d2eba8e4d3ad322f4a0a803dea7e941f1a52" ∧
    exampleHash ≠
      "d0a1beeae01789cfac9ca25e5902d2eba8e4d3ad322f4a0a803dea7e941f1a52" := by
  have hkeys : lockedExampleData ≠ exampleData := by
    intro hcon
    have h4 : metaKeys lockedExampleData =
        ["sources", "requires", "hash", "pipfile-spec"] := rfl
    have h2k : metaKeys exampleData = ["sources", "requires"] := rfl
    rw [hcon, h2k] at h4
    exact absurd h4 (by decide)
  refine ⟨hash_exampleData, lockData_exampleData, hkeys, ?_, by decide⟩
  rw [lockData_exampleData, bind_ok_eq]
  exact hash_lockedExampleData

/-- Witness for C6: the example manifest's `_meta` lacks `pipfile-spec`,
and `lock` leaves the data changed. -/
theorem claim_C6_witness :
    lookupKey exampleEntries "_meta" = some (.dict exampleMeta) ∧
    Pipfile.lockData (.dict exampleEntries) ≠
      Except.ok (.dict exampleEntries) :=
  ⟨rfl, (claim_C6_lock_mutates exampleEntries exampleMeta exampleHash
    rfl rfl hash_exampleData).2⟩

/-! ## Lemmas on `dict.update` and the injector (C9) -/

theorem lookupKey_eq_none_iff (l : List (String × Value)) (k : String) :
    lookupKey l k = Option.none ↔ k ∉ l.map Prod.fst := by
  induction l with
  | nil => simp [lookupKey]
  | cons p rest ih =>
    obtain ⟨a, b⟩ := p
    by_cases h : a = k
    · subst h
      simp [lookupKey]
    · simp [lookupKey, h, ih, Ne.symm h]

theorem dictUpdate_cons (base : List (String × Value))
    (p : String × Value) (rest : List (String × Value)) :
    dictUpdate base (p :: rest) = dictUpdate (setKey base p.1 p.2) rest :=
  rfl

theorem lookupKey_dictUpdate_none (base upd : List (String × Value))
    (k : String) (h : lookupKey upd k = Option.none) :
    lookupKey (dictUpdate base upd) k = lookupKey base k := by
  induction upd generalizing base with
  | nil => rfl
  | cons p rest ih =>
    obtain ⟨a, b⟩ := p
    rw [dictUpdate_cons]
    by_cases ha : a = k
    · subst ha
      simp [lookupKey] at h
    · have h' : lookupKey rest k = Option.none := by
        simpa [lookupKey, ha] using h
      rw [ih _ h', lookupKey_setKey_ne _ _ _ _ ha]

theorem lookupKey_dictUpdate_some (base upd : List (String × Value))
    (k : String) (v : Value) (hnd : (upd.map Prod.fst).Nodup)
    (h : lookupKey upd k = some v) :
    lookupKey (dictUpdate base upd) k = some v := by
  induction upd generalizing base with
  | nil => simp [lookupKey] at h
  | cons p rest ih =>
    obtain ⟨a, b⟩ := p
    rw [dictUpdate_cons]
    rw [List.map_cons] at hnd
    have hnd' := List.nodup_cons.mp hnd
    by_cases ha : a = k
    · subst ha
      have hb : b = v := by simpa [lookupKey] using h
      subst hb
      have hnone : lookupKey rest a = Option.none :=
        (lookupKey_eq_none_iff rest a).mpr hnd'.1
      rw [lookupKey_dictUpdate_none _ _ _ hnone]
      exact lookupKey_setKey_self base a b
    · have h' : lookupKey rest k = some v := by
        simpa [lookupKey, ha] using h
      exact ih _ hnd'.2 h'

theorem getKey_ok_iff (l : List (String × Value)) (k : String) (v : Value) :
    getKey l k = Except.ok v ↔ lookupKey l k = some v := by
  unfold getKey
  match h : lookupKey l k with
  | some w => simp
  | Option.none => simp

theorem inject_dict_ok (env : List (String × String))
    (l : List (String × Value)) (w : Value)
    (h : inject_environment_variables env (.dict l) = Except.ok w) :
    ∃ l', injectItems env l = Except.ok l' ∧ w = .dict l' := by
  match l with
  | [] =>
    refine ⟨[], rfl, ?_⟩
    have : inject_environment_variables env (.dict []) =
        Except.ok (.dict []) := rfl
    rw [this] at h
    cases h
    rfl
  | p :: rest =>
    have hstep : inject_environment_variables env (.dict (p :: rest)) =
        (do
          let l' ← injectItems env (p :: rest)
          Except.ok (Value.dict l')) := by
      obtain ⟨k, v⟩ := p
      simp [inject_environment_variables, Value.truthy, List.isEmpty]
    rw [hstep] at h
    match hi : injectItems env (p :: rest) with
    | .ok l' =>
      rw [hi] at h
      simp at h
      exact ⟨l', rfl, h.symm⟩
    | .error e =>
      rw [hi] at h
      simp at h

theorem injectItems_ok_keys (env : List (String × String)) :
    ∀ (l l' : List (String × Value)),
      injectItems env l = Except.ok l' →
      l'.map Prod.fst = l.map Prod.fst := by
  intro l
  induction l with
  | nil =>
    intro l' h
    have : ([] : List (String × Value)) = l' := by
      simpa [injectItems] using h
    rw [← this]
  | cons p rest ih =>
    obtain ⟨k, v⟩ := p
    intro l' h
    rw [injectItems_cons] at h
    match hv : injectDictValue env v with
    | .error e => rw [hv] at h; simp at h
    | .ok v' =>
      rw [hv] at h
      simp only [ok_bind] at h
      match hr : injectItems env rest with
      | .error e => rw [hr] at h; simp at h
      | .ok rest' =>
        rw [hr] at h
        simp only [ok_bind, Except.ok.injEq] at h
        rw [← h]
        simp [ih rest' hr]

theorem injectItems_ok_lookup (env : List (String × String))
    (l : List (String × Value)) (l' : List (String × Value)) (k : String)
    (h : injectItems env l = Except.ok l') (v : Value)
    (hk : lookupKey l k = some v) :
    ∃ w, injectDictValue env v = Except.ok w ∧ lookupKey l' k = some w := by
  induction l generalizing l' with
  | nil => simp [lookupKey] at hk
  | cons p rest ih =>
    obtain ⟨a, b⟩ := p
    rw [injectItems_cons] at h
    match hb : injectDictValue env b with
    | .error e => rw [hb] at h; simp at h
    | .ok b' =>
      rw [hb] at h
      simp only [ok_bind] at h
      match hr : injectItems env rest with
      | .error e => rw [hr] at h; simp at h
      | .ok rest' =>
        rw [hr] at h
        simp only [ok_bind, Except.ok.injEq] at h
        rw [← h]
        by_cases ha : a = k
        · subst ha
          have hv : b = v := by simpa [lookupKey] using hk
          subst hv
          exact ⟨b', hb, by simp [lookupKey]⟩
        · have hk' : lookupKey rest k = some v := by
            simpa [lookupKey, ha] using hk
          obtain ⟨w, hw1, hw2⟩ := ih rest' hr hk'
          exact ⟨w, hw1, by simpa [lookupKey, ha] using hw2⟩

theorem parse_ok_shape (env : List (String × String))
    (parsed : List (String × Value)) (b : Bool) (d : Value)
    (hok : PipfileParser.parse env parsed b = Except.ok d) :
    ∃ (eff : List (String × Value)) (vs vr vp vd : Value),
      (if b then injectItems env parsed = Except.ok eff
       else eff = parsed) ∧
      lookupKey (dictUpdate default_config eff) "source" = some vs ∧
      lookupKey (dictUpdate default_config eff) "requires" = some vr ∧
      lookupKey (dictUpdate default_config eff) "packages" = some vp ∧
      lookupKey (dictUpdate default_config eff) "dev-packages" = some vd ∧
      d = .dict [("_meta", .dict [("sources", vs), ("requires", vr)]),
                 ("default", vp), ("develop", vd)] := by
  have hbase : dictUpdate [] default_config = default_config := rfl
  cases b with
  | false =>
    refine ⟨parsed, ?_⟩
    simp only [PipfileParser.parse, Bool.false_eq_true, if_false,
      pure_eq_ok, ok_bind, hbase] at hok
    match hs : getKey (dictUpdate default_config parsed) "source" with
    | .error e => rw [hs] at hok; simp at hok
    | .ok vs =>
      rw [hs] at hok
      simp only [ok_bind] at hok
      match hr : getKey (dictUpdate default_config parsed) "requires" with
      | .error e => rw [hr] at hok; simp at hok
      | .ok vr =>
        rw [hr] at hok
        simp only [ok_bind] at hok
        match hp : getKey (dictUpdate default_config parsed) "packages" with
        | .error e => rw [hp] at hok; simp at hok
        | .ok vp =>
          rw [hp] at hok
          simp only [ok_bind] at hok
          match hd : getKey (dictUpdate default_config parsed)
              "dev-packages" with
          | .error e => rw [hd] at hok; simp at hok
          | .ok vd =>
            rw [hd] at hok
            simp only [ok_bind, Except.ok.injEq] at hok
            exact ⟨vs, vr, vp, vd, rfl,
              (getKey_ok_iff _ _ _).mp hs, (getKey_ok_iff _ _ _).mp hr,
              (getKey_ok_iff _ _ _).mp hp, (getKey_ok_iff _ _ _).mp hd,
              hok.symm⟩
  | true =>
    simp only [PipfileParser.parse, if_true, hbase] at hok
    match hi : inject_environment_variables env (.dict parsed) with
    | .error e => rw [hi] at hok; simp at hok
    | .ok w =>
      rw [hi] at hok
      simp only [ok_bind] at hok
      obtain ⟨eff, heff, rfl⟩ := inject_dict_ok env parsed w hi
      simp only [pure_eq_ok, ok_bind] at hok
      refine ⟨eff, ?_⟩
      match hs : getKey (dictUpdate default_config eff) "source" with
      | .error e => rw [hs] at hok; simp at hok
      | .ok vs =>
        rw [hs] at hok
        simp only [ok_bind] at hok
        match hr : getKey (dictUpdate default_config eff) "requires" with
        | .error e => rw [hr] at hok; simp at hok
        | .ok vr =>
          rw [hr] at hok
          simp only [ok_bind] at hok
          match hp : getKey (dictUpdate default_config eff) "packages" with
          | .error e => rw [hp] at hok; simp at hok
          | .ok vp =>
            rw [hp] at hok
            simp only [ok_bind] at hok
            match hd : getKey (dictUpdate default_config eff)
                "dev-packages" with
            | .error e => rw [hd] at hok; simp at hok
            | .ok vd =>
              rw [hd] at hok
              simp only [ok_bind, Except.ok.injEq] at hok
              exact ⟨vs, vr, vp, vd, heff,
                (getKey_ok_iff _ _ _).mp hs, (getKey_ok_iff _ _ _).mp hr,
                (getKey_ok_iff _ _ _).mp hp, (getKey_ok_iff _ _ _).mp hd,
                hok.symm⟩

/-- C9: `parse` merges the parsed TOML tree over the defaults by
top-level key override only: when the manifest binds `source` to the
empty array, the resulting `_meta.sources` is the empty list; the
implicit pypi default source appears exactly when the `source` key is
entirely absent.  Holds in both injection modes (the injector preserves
the key set and maps an empty `source` array to itself). -/
theorem claim_C9_source_override (env : List (String × String))
    (parsed : List (String × Value)) (b : Bool) (d : Value)
    (hok : PipfileParser.parse env parsed b = Except.ok d)
    (hnd : (parsed.map Prod.fst).Nodup) :
    (lookupKey parsed "source" = some (.list []) →
      metaSources d = some (.list [])) ∧
    (lookupKey parsed "source" = Option.none →
      metaSources d = some (.list [.dict
        [("url", .str "https://pypi.python.org/simple"),
         ("verify_ssl", .bool true), ("name", .str "pypi")]])) := by
  obtain ⟨eff, vs, vr, vp, vd, heff, hvs, hvr, hvp, hvd, rfl⟩ :=
    parse_ok_shape env parsed b d hok
  have hms : metaSources (Value.dict
      [("_meta", .dict [("sources", vs), ("requires", vr)]),
       ("default", vp), ("develop", vd)]) = some vs := rfl
  have hkeys : eff.map Prod.fst = parsed.map Prod.fst := by
    cases b with
    | false =>
      simp only [Bool.false_eq_true, if_false] at heff
      rw [heff]
    | true =>
      simp only [if_true] at heff
      exact injectItems_ok_keys env parsed eff heff
  have hndeff : (eff.map Prod.fst).Nodup := by
    rw [hkeys]
    exact hnd
  constructor
  · intro hsrc
    have heffsrc : lookupKey eff "source" = some (.list []) := by
      cases b with
      | false =>
        simp only [Bool.false_eq_true, if_false] at heff
        rw [heff]
        exact hsrc
      | true =>
        simp only [if_true] at heff
        obtain ⟨w, hw1, hw2⟩ :=
          injectItems_ok_lookup env parsed eff "source" heff _ hsrc
        have : w = Value.list [] := by
          have h0 : injectDictValue env (Value.list []) =
              Except.ok (Value.list []) := rfl
          rw [h0] at hw1
          cases hw1
          rfl
        rw [← this]
        exact hw2
    have := lookupKey_dictUpdate_some default_config eff "source"
      (.list []) hndeff heffsrc
    rw [this] at hvs
    cases hvs
    exact hms
  · intro hsrc
    have heffsrc : lookupKey eff "source" = Option.none := by
      rw [lookupKey_eq_none_iff, hkeys, ← lookupKey_eq_none_iff]
      exact hsrc
    have := lookupKey_dictUpdate_none default_config eff "source" heffsrc
    rw [this] at hvs
    have hdefsrc : lookupKey default_config "source" = some (.list [.dict
        [("url", .str "https://pypi.python.org/simple"),
         ("verify_ssl", .bool true), ("name", .str "pypi")]]) := rfl
    rw [hdefsrc] at hvs
    cases hvs
    exact hms

/-- Witness for C9: a manifest binding `source = []` parses (raw mode)
with an empty source list, and the concrete end-to-end example of the
spec keeps its explicit source. -/
theorem claim_C9_witness :
    PipfileParser.parse [] [("source", Value.list [])] false =
      Except.ok (.dict
        [("_meta", .dict [("sources", .list []), ("requires", .dict [])]),
         ("default", .dict []), ("develop", .dict [])]) ∧
    metaSources (.dict
      [("_meta", .dict [("sources", .list []), ("requires", .dict [])]),
       ("default", .dict []), ("develop", .dict [])]) = some (.list []) :=
  ⟨rfl, (claim_C9_source_override [] [("source", Value.list [])] false _
      rfl (by decide)).1 rfl⟩

end Pipfile
